import Mathlib

/-!
Shallow embedding of the interactive 2D diagram editor in `draw.py`.

Coordinates are modelled as exact rationals (`ℚ`).  The host math library
(`math.cos`, `math.sin`, `math.atan2`, `math.hypot`) and the render adapter
(text measurement, the modal text prompt) are modelled as an explicit `Host`
record of oracle functions, mirroring the fact that the source calls out to
`math` and to tkinter for these values; every use below applies the oracle at
exactly the arguments the source passes.  Comparisons that the source performs
on a `math.hypot` result (`hypot(...) <= 5`, `hypot(...) == 0`) are embedded as
the equivalent squared comparisons, which agree with the exact real values.

The tkinter canvas is modelled as a display list of item ids in stacking order
(bottom to top): `create_*` appends on top, `delete` removes, `tag_raise` moves
an item to the top, and `bbox` reports the stored rectangle of handle items and
the measured bounding box of text items (the only items the source ever calls
`bbox` on).  Python exceptions escaping an event handler are modelled by
`Except String`: an erroring handler performs no state update.
-/

unseal Rat.mul Rat.add Rat.sub Rat.inv

/-- Python `int(q)`: truncation toward zero. -/
def pyInt (q : ℚ) : ℤ := if 0 ≤ q then ⌊q⌋ else -⌊-q⌋

/-- Python `x % m` on floats: `x - m * ⌊x / m⌋`, in `[0, m)` for `m > 0`. -/
def pymod (x m : ℚ) : ℚ := x - m * ⌊x / m⌋

/-- Oracles for the host math library and render adapter. `cosDeg θ` stands for
`math.cos(math.radians(θ))` (likewise `sinDeg`), `atan2Deg y x` for
`math.degrees(math.atan2(y, x))`, `hypot` for `math.hypot`, `measureText` for
the canvas bounding box tkinter reports for a rendered text item, and
`promptText` for the string the modal text editor returns. -/
structure Host where
  cosDeg : ℚ → ℚ
  sinDeg : ℚ → ℚ
  atan2Deg : ℚ → ℚ → ℚ
  hypot : ℚ → ℚ → ℚ
  measureText : String → ℤ → ℚ → ℚ → ℚ × ℚ × ℚ × ℚ
  promptText : String

/-- State of the `Shape` base class: selection flag, the named handle canvas
items, and the main canvas item id ( `self.item` ). -/
structure ShapeCore where
  selected : Bool
  handles : List (String × ℕ)
  item : Option ℕ
deriving DecidableEq

def ShapeCore.initCore : ShapeCore := ⟨false, [], none⟩

/-- `RectangleShape.__init__`. -/
structure RectangleShape where
  core : ShapeCore
  base_x : ℚ
  base_y : ℚ
  base_width : ℚ
  base_height : ℚ
  x : ℚ
  y : ℚ
  width : ℚ
  height : ℚ
  angle : ℚ
deriving DecidableEq

def RectangleShape.make (x y width height : ℚ) : RectangleShape :=
  ⟨ShapeCore.initCore, x, y, width, height, x, y, width, height, 0⟩

/-- `RectangleShape.get_corners`, with `cos_a`/`sin_a` the math-library values
of cosine and sine at `radians(angle)` supplied by the caller. -/
def RectangleShape.get_corners (s : RectangleShape) (cos_a sin_a : ℚ) :
    List (ℚ × ℚ) :=
  [(-(s.width / 2), -(s.height / 2)), (s.width / 2, -(s.height / 2)),
   (s.width / 2, s.height / 2), (-(s.width / 2), s.height / 2)].map
    (fun p => (s.x + p.1 * cos_a - p.2 * sin_a, s.y + p.1 * sin_a + p.2 * cos_a))

/-- `RectangleShape.contains_point`: inverse-rotate into the local frame, then
an axis-aligned bounds check.  `cos_a`/`sin_a` are the math-library values at
`radians(-angle)`. -/
def RectangleShape.contains_point (s : RectangleShape) (cos_a sin_a px py : ℚ) :
    Bool :=
  let dx := px - s.x
  let dy := py - s.y
  let lx := dx * cos_a - dy * sin_a
  let ly := dx * sin_a + dy * cos_a
  decide (|lx| ≤ s.width / 2) && decide (|ly| ≤ s.height / 2)

/-- Center of the blue `resize` handle drawn by `RectangleShape.draw_handles`:
the corner `pts[2]`, i.e. local `(w/2, h/2)` rotated with the shape. -/
def RectangleShape.resize_handle_center (s : RectangleShape) (cos_a sin_a : ℚ) :
    ℚ × ℚ :=
  (s.get_corners cos_a sin_a).getD 2 (0, 0)

/-- Center of the red `rotate` handle drawn by `RectangleShape.draw_handles`:
the midpoint of the rotated corners `pts[0]`, `pts[1]`, then 20 canvas units
straight up (the `-20` is applied to the canvas `y`, after rotation). -/
def RectangleShape.rotate_handle_center (s : RectangleShape) (cos_a sin_a : ℚ) :
    ℚ × ℚ :=
  let pts := s.get_corners cos_a sin_a
  let p0 := pts.getD 0 (0, 0)
  let p1 := pts.getD 1 (0, 0)
  ((p0.1 + p1.1) / 2, (p0.2 + p1.2) / 2 - 20)

/-- `CircleShape.__init__`; note that no `angle` attribute is ever set. -/
structure CircleShape where
  core : ShapeCore
  base_x : ℚ
  base_y : ℚ
  base_radius : ℚ
  x : ℚ
  y : ℚ
  radius : ℚ
deriving DecidableEq

def CircleShape.make (x y radius : ℚ) : CircleShape :=
  ⟨ShapeCore.initCore, x, y, radius, x, y, radius⟩

/-- `CircleShape.contains_point`: squared-distance comparison. -/
def CircleShape.contains_point (s : CircleShape) (px py : ℚ) : Bool :=
  decide ((px - s.x) ^ 2 + (py - s.y) ^ 2 ≤ s.radius ^ 2)

/-- `HourglassShape.__init__`. -/
structure HourglassShape where
  core : ShapeCore
  base_x : ℚ
  base_y : ℚ
  base_width : ℚ
  base_height : ℚ
  x : ℚ
  y : ℚ
  width : ℚ
  height : ℚ
  angle : ℚ
deriving DecidableEq

def HourglassShape.make (x y width height : ℚ) : HourglassShape :=
  ⟨ShapeCore.initCore, x, y, width, height, x, y, width, height, 0⟩

/-- `HourglassShape._get_coords`: the deliberate self-intersecting bowtie
order, rotated and translated.  `cos_a`/`sin_a` as in `get_corners`. -/
def HourglassShape.get_coords (s : HourglassShape) (cos_a sin_a : ℚ) :
    List (ℚ × ℚ) :=
  let w2 := s.width / 2
  let h2 := s.height / 2
  [(-w2, -h2), (w2, h2), (-w2, h2), (w2, -h2), (-w2, -h2)].map
    (fun p => (s.x + p.1 * cos_a - p.2 * sin_a, s.y + p.1 * sin_a + p.2 * cos_a))

/-- `_point_in_polygon`: even-odd ray casting over the literal vertex
sequence; the guard `(y1 > py) != (y2 > py)` makes the division safe. -/
def point_in_polygon (px py : ℚ) (pts : List (ℚ × ℚ)) : Bool :=
  (pts.zip (pts.rotate 1)).foldl
    (fun inside e =>
      let x1 := e.1.1
      let y1 := e.1.2
      let x2 := e.2.1
      let y2 := e.2.2
      if (decide (y1 > py)) ≠ (decide (y2 > py)) then
        if x1 + (py - y1) * (x2 - x1) / (y2 - y1) > px then !inside else inside
      else inside)
    false

/-- `HourglassShape.contains_point`. -/
def HourglassShape.contains_point (s : HourglassShape) (cos_a sin_a px py : ℚ) :
    Bool :=
  point_in_polygon px py (s.get_coords cos_a sin_a)

/-- First element attaining the maximal first component (Python `max` with a
key returns the first maximum). -/
def firstMaxFst : List (ℚ × ℚ) → ℚ × ℚ
  | [] => (0, 0)
  | p :: rest => rest.foldl (fun acc q => if q.1 > acc.1 then q else acc) p

/-- First element attaining the minimal second component. -/
def firstMinSnd : List (ℚ × ℚ) → ℚ × ℚ
  | [] => (0, 0)
  | p :: rest => rest.foldl (fun acc q => if q.2 < acc.2 then q else acc) p

/-- `LineShape.__init__`. -/
structure LineShape where
  core : ShapeCore
  base_x1 : ℚ
  base_y1 : ℚ
  base_x2 : ℚ
  base_y2 : ℚ
  x1 : ℚ
  y1 : ℚ
  x2 : ℚ
  y2 : ℚ
deriving DecidableEq

def LineShape.make (x1 y1 x2 y2 : ℚ) : LineShape :=
  ⟨ShapeCore.initCore, x1, y1, x2, y2, x1, y1, x2, y2⟩

/-- Projection parameter `u` of `LineShape.contains_point` (defined whenever
the segment is non-degenerate; `line_len ** 2` is the exact squared length). -/
def LineShape.lineU (s : LineShape) (px py : ℚ) : ℚ :=
  ((px - s.x1) * (s.x2 - s.x1) + (py - s.y1) * (s.y2 - s.y1)) /
    ((s.x2 - s.x1) ^ 2 + (s.y2 - s.y1) ^ 2)

/-- `LineShape.contains_point`.  `math.hypot(...) == 0` is embedded as the
squared length being `0`, and `math.hypot(px-cx, py-cy) <= 5` as the squared
distance being `≤ 25`; both are exact equivalences over the reals.  Note the
source returns `False` outright when `u` leaves `[0, 1]` — it does not clamp. -/
def LineShape.contains_point (s : LineShape) (px py : ℚ) : Bool :=
  let len2 := (s.x2 - s.x1) ^ 2 + (s.y2 - s.y1) ^ 2
  if len2 = 0 then
    decide (|px - s.x1| < 5) && decide (|py - s.y1| < 5)
  else
    let u := s.lineU px py
    if u < 0 ∨ u > 1 then false
    else
      let cx := s.x1 + u * (s.x2 - s.x1)
      let cy := s.y1 + u * (s.y2 - s.y1)
      decide ((px - cx) ^ 2 + (py - cy) ^ 2 ≤ 25)

/-- The clamped variant described by the specification text ("clamps the
projection parameter to [0,1], compares distance to tolerance"), written from
the spec's words for comparison with the source's `contains_point`. -/
def LineShape.containsPointClamped (s : LineShape) (px py : ℚ) : Bool :=
  let len2 := (s.x2 - s.x1) ^ 2 + (s.y2 - s.y1) ^ 2
  if len2 = 0 then
    decide (|px - s.x1| < 5) && decide (|py - s.y1| < 5)
  else
    let u := max 0 (min 1 (s.lineU px py))
    let cx := s.x1 + u * (s.x2 - s.x1)
    let cy := s.y1 + u * (s.y2 - s.y1)
    decide ((px - cx) ^ 2 + (py - cy) ^ 2 ≤ 25)

/-- `TextShape.__init__`.  `font_size` is an `int` in the source (`int(...)`
at every zoom/resize write); `bbox` is only known after a render pass. -/
structure TextShape where
  core : ShapeCore
  base_x : ℚ
  base_y : ℚ
  base_font_size : ℚ
  x : ℚ
  y : ℚ
  text : String
  font_size : ℤ
  angle : ℚ
  bbox : Option (ℚ × ℚ × ℚ × ℚ)
deriving DecidableEq

def TextShape.make (x y : ℚ) (text : String) (font_size : ℤ) : TextShape :=
  ⟨ShapeCore.initCore, x, y, (font_size : ℚ), x, y, text, font_size, 0, none⟩

/-- `TextShape.contains_point`: inside the last reported bounding box. -/
def TextShape.contains_point (s : TextShape) (px py : ℚ) : Bool :=
  match s.bbox with
  | some (bx1, by1, bx2, by2) =>
      decide (bx1 ≤ px ∧ px ≤ bx2 ∧ by1 ≤ py ∧ py ≤ by2)
  | none => false

/-- The closed set of shape variants. -/
inductive Shape
  | rect (s : RectangleShape)
  | circle (s : CircleShape)
  | hourglass (s : HourglassShape)
  | line (s : LineShape)
  | text (s : TextShape)
deriving DecidableEq

def Shape.coreOf : Shape → ShapeCore
  | .rect s => s.core
  | .circle s => s.core
  | .hourglass s => s.core
  | .line s => s.core
  | .text s => s.core

def Shape.withCore : Shape → ShapeCore → Shape
  | .rect s, c => .rect { s with core := c }
  | .circle s, c => .circle { s with core := c }
  | .hourglass s, c => .hourglass { s with core := c }
  | .line s, c => .line { s with core := c }
  | .text s, c => .text { s with core := c }

def Shape.itemOf (sh : Shape) : Option ℕ := sh.coreOf.item

def Shape.handlesOf (sh : Shape) : List (String × ℕ) := sh.coreOf.handles

def Shape.selectedFlag (sh : Shape) : Bool := sh.coreOf.selected

def Shape.withHandles (sh : Shape) (hs : List (String × ℕ)) : Shape :=
  sh.withCore { sh.coreOf with handles := hs }

def Shape.withItem (sh : Shape) (it : Option ℕ) : Shape :=
  sh.withCore { sh.coreOf with item := it }

def Shape.withSelected (sh : Shape) (b : Bool) : Shape :=
  sh.withCore { sh.coreOf with selected := b }

/-- Python `getattr(shp, "angle")`: defined for rectangle, hourglass and text;
`CircleShape` and `LineShape` never set an `angle` attribute, so the read
raises `AttributeError`. -/
def Shape.angleAttr : Shape → Option ℚ
  | .rect s => some s.angle
  | .hourglass s => some s.angle
  | .text s => some s.angle
  | .circle _ => none
  | .line _ => none

/-- Python `(shp.x, shp.y)`: `LineShape` has neither attribute. -/
def Shape.centerAttr : Shape → Option (ℚ × ℚ)
  | .rect s => some (s.x, s.y)
  | .circle s => some (s.x, s.y)
  | .hourglass s => some (s.x, s.y)
  | .text s => some (s.x, s.y)
  | .line _ => none

/-- Shape geometry with the UI bookkeeping (selection, handles, canvas item,
reported text bbox) erased; used to state that drawing does not move shapes. -/
def Shape.stripUI : Shape → Shape
  | .rect s => .rect { s with core := ShapeCore.initCore }
  | .circle s => .circle { s with core := ShapeCore.initCore }
  | .hourglass s => .hourglass { s with core := ShapeCore.initCore }
  | .line s => .line { s with core := ShapeCore.initCore }
  | .text s => .text { s with core := ShapeCore.initCore, bbox := none }

/-- `Shape.contains_point` dispatch; the rotated variants receive the
math-library cosine/sine at `radians(-angle)` exactly as the source computes
them. -/
def Shape.contains_point (H : Host) (sh : Shape) (px py : ℚ) : Bool :=
  match sh with
  | .rect s => s.contains_point (H.cosDeg (-s.angle)) (H.sinDeg (-s.angle)) px py
  | .circle s => s.contains_point px py
  | .hourglass s => s.contains_point (H.cosDeg s.angle) (H.sinDeg s.angle) px py
  | .line s => s.contains_point px py
  | .text s => s.contains_point px py

/-- Items of the modelled tkinter canvas.  `prim` is a polygon/oval/line
primitive whose coordinates the core only ever writes; `textPrim` carries the
bounding box the render adapter reports; `hrect` is a handle rectangle. -/
inductive CanvasItem
  | prim
  | textPrim (bb : ℚ × ℚ × ℚ × ℚ)
  | hrect (bb : ℚ × ℚ × ℚ × ℚ)
deriving DecidableEq

/-- The canvas display list, bottom-to-top, with a fresh-id counter. -/
structure Canvas where
  items : List (ℕ × CanvasItem)
  nextId : ℕ
deriving DecidableEq

def Canvas.create (c : Canvas) (it : CanvasItem) : Canvas × ℕ :=
  (⟨c.items ++ [(c.nextId, it)], c.nextId + 1⟩, c.nextId)

def Canvas.deleteItem (c : Canvas) (i : ℕ) : Canvas :=
  ⟨c.items.filter (fun e => decide (e.1 ≠ i)), c.nextId⟩

/-- `canvas.bbox(id)` for the items the source queries it on. -/
def Canvas.bbox (c : Canvas) (i : ℕ) : Option (ℚ × ℚ × ℚ × ℚ) :=
  match c.items.find? (fun e => decide (e.1 = i)) with
  | some (_, .textPrim bb) => some bb
  | some (_, .hrect bb) => some bb
  | _ => none

/-- `canvas.tag_raise(id)`: move the item to the top of the display list. -/
def Canvas.tag_raise (c : Canvas) (i : ℕ) : Canvas :=
  match c.items.find? (fun e => decide (e.1 = i)) with
  | some e => ⟨c.items.filter (fun e2 => decide (e2.1 ≠ i)) ++ [e], c.nextId⟩
  | none => c

/-- `Shape.delete_handles`: delete every handle item, clear the mapping. -/
def Shape.delete_handles (c : Canvas) (sh : Shape) : Canvas × Shape :=
  (sh.handlesOf.foldl (fun acc p => acc.deleteItem p.2) c, sh.withHandles [])

/-- Per-variant `draw`: non-text shapes create their primitive once and
afterwards only rewrite its coordinates (`canvas.coords`, which leaves the
display list unchanged); text deletes and recreates its item every draw and
stores the bounding box the canvas reports. -/
def Shape.draw (H : Host) (c : Canvas) (sh : Shape) : Canvas × Shape :=
  match sh with
  | .text t =>
      let c1 := match t.core.item with
        | some i => c.deleteItem i
        | none => c
      let p := c1.create (.textPrim (H.measureText t.text t.font_size t.x t.y))
      (p.1, .text { t with core := { t.core with item := some p.2 },
                           bbox := p.1.bbox p.2 })
  | _ =>
      match sh.coreOf.item with
      | none =>
          let p := c.create .prim
          (p.1, sh.withCore { sh.coreOf with item := some p.2 })
      | some _ => (c, sh)

/-- Per-variant `draw_handles`, translated from the source: delete the old
handle items, recompute handle rectangles from the current geometry, create
them on top of the display list. -/
def Shape.draw_handles (H : Host) (c : Canvas) (sh : Shape) : Canvas × Shape :=
  let del := Shape.delete_handles c sh
  match del.2 with
  | .rect r =>
      let ca := H.cosDeg r.angle
      let sa := H.sinDeg r.angle
      let rc := r.resize_handle_center ca sa
      let p1 := del.1.create (.hrect (rc.1 - 6, rc.2 - 6, rc.1 + 6, rc.2 + 6))
      let tc := r.rotate_handle_center ca sa
      let p2 := p1.1.create (.hrect (tc.1 - 6, tc.2 - 6, tc.1 + 6, tc.2 + 6))
      (p2.1, Shape.withHandles (.rect r) [("resize", p1.2), ("rotate", p2.2)])
  | .circle s =>
      let p1 := del.1.create
        (.hrect (s.x + s.radius - 6, s.y - 6, s.x + s.radius + 6, s.y + 6))
      let ty := s.y - s.radius - 20
      let p2 := p1.1.create (.hrect (s.x - 6, ty - 6, s.x + 6, ty + 6))
      (p2.1, Shape.withHandles (.circle s) [("resize", p1.2), ("rotate", p2.2)])
  | .hourglass g =>
      let pts := (g.get_coords (H.cosDeg g.angle) (H.sinDeg g.angle)).take 4
      let rp := firstMaxFst pts
      let p1 := del.1.create (.hrect (rp.1 - 6, rp.2 - 6, rp.1 + 6, rp.2 + 6))
      let tp := firstMinSnd pts
      let p2 := p1.1.create
        (.hrect (tp.1 - 6, tp.2 - 20 - 6, tp.1 + 6, tp.2 - 20 + 6))
      (p2.1, Shape.withHandles (.hourglass g) [("resize", p1.2), ("rotate", p2.2)])
  | .line l =>
      let p1 := del.1.create (.hrect (l.x1 - 5, l.y1 - 5, l.x1 + 5, l.y1 + 5))
      let p2 := p1.1.create (.hrect (l.x2 - 5, l.y2 - 5, l.x2 + 5, l.y2 + 5))
      (p2.1, Shape.withHandles (.line l) [("end1", p1.2), ("end2", p2.2)])
  | .text t =>
      match t.bbox with
      | none => (del.1, .text t)
      | some (bx1, by1, bx2, by2) =>
          let p1 := del.1.create (.hrect (bx1, by1, bx2, by2))
          let p2 := p1.1.create (.hrect (bx2 - 6, by2 - 6, bx2 + 6, by2 + 6))
          let nb := match t.core.item with
            | some i => p2.1.bbox i
            | none => t.bbox
          (p2.1, .text { t with core := { t.core with handles :=
                          [("bbox", p1.2), ("resize", p2.2)] }, bbox := nb })

/-- `Shape.select`: set the flag and draw handles. -/
def Shape.select (H : Host) (c : Canvas) (sh : Shape) : Canvas × Shape :=
  Shape.draw_handles H c (sh.withSelected true)

/-- `Shape.deselect`: clear the flag and delete handles. -/
def Shape.deselect (c : Canvas) (sh : Shape) : Canvas × Shape :=
  Shape.delete_handles c (sh.withSelected false)

/-- Geometry update of `App.on_canvas_drag` in `create`/`move` mode: translate
in displayed space and write the base coordinates back as displayed divided by
the current zoom. -/
def Shape.translateShape (z dx dy : ℚ) : Shape → Shape
  | .line l =>
      .line { l with
        x1 := l.x1 + dx, y1 := l.y1 + dy, x2 := l.x2 + dx, y2 := l.y2 + dy,
        base_x1 := (l.x1 + dx) / z, base_y1 := (l.y1 + dy) / z,
        base_x2 := (l.x2 + dx) / z, base_y2 := (l.y2 + dy) / z }
  | .rect r =>
      .rect { r with x := r.x + dx, y := r.y + dy,
                     base_x := (r.x + dx) / z, base_y := (r.y + dy) / z }
  | .circle s =>
      .circle { s with x := s.x + dx, y := s.y + dy,
                       base_x := (s.x + dx) / z, base_y := (s.y + dy) / z }
  | .hourglass g =>
      .hourglass { g with x := g.x + dx, y := g.y + dy,
                          base_x := (g.x + dx) / z, base_y := (g.y + dy) / z }
  | .text t =>
      .text { t with x := t.x + dx, y := t.y + dy,
                     base_x := (t.x + dx) / z, base_y := (t.y + dy) / z }

/-- Drag-session bookkeeping, modelling the `self.drag_data` dict; `none`
means the key is absent. -/
structure DragData where
  x : Option ℚ
  y : Option ℚ
  handle : Option String
  initX : Option ℚ
  initY : Option ℚ
  initFontSize : Option ℤ
  initRotateAngle : Option ℚ
  initShapeAngle : Option ℚ
deriving DecidableEq

def DragData.empty : DragData := ⟨none, none, none, none, none, none, none, none⟩

/-- `self.drag_data = {"x": cx, "y": cy}` (dict replacement). -/
def DragData.anchor (cx cy : ℚ) : DragData :=
  ⟨some cx, some cy, none, none, none, none, none, none⟩

/-- Geometry update of `App.on_canvas_drag` in `resizing` mode, translated
variant by variant from the source ( `hname` defaults to `""` as in
`self.drag_data.get("handle", "")` ). -/
def Shape.resizeShape (H : Host) (z : ℚ) (d : DragData) (cx cy : ℚ) :
    Shape → Shape
  | .rect r =>
      if d.handle.getD "" = "resize" then
        let ca := H.cosDeg (-r.angle)
        let sa := H.sinDeg (-r.angle)
        let dxr := cx - r.x
        let dyr := cy - r.y
        let lx := dxr * ca - dyr * sa
        let ly := dxr * sa + dyr * ca
        let w := max 10 (|lx| * 2)
        let h := max 10 (|ly| * 2)
        .rect { r with width := w, height := h,
                       base_width := w / z, base_height := h / z }
      else .rect r
  | .circle s =>
      if d.handle.getD "" = "resize" then
        let rr := H.hypot (cx - s.x) (cy - s.y)
        let nr := max 10 rr
        .circle { s with radius := nr, base_radius := nr / z }
      else .circle s
  | .hourglass g =>
      if d.handle.getD "" = "resize" then
        let ca := H.cosDeg (-g.angle)
        let sa := H.sinDeg (-g.angle)
        let dxr := cx - g.x
        let dyr := cy - g.y
        let lx := dxr * ca - dyr * sa
        let ly := dxr * sa + dyr * ca
        let w := max 10 (|lx| * 2)
        let h := max 10 (|ly| * 2)
        .hourglass { g with width := w, height := h,
                            base_width := w / z, base_height := h / z }
      else .hourglass g
  | .line l =>
      if d.handle.getD "" = "end1" then
        .line { l with x1 := cx, y1 := cy, base_x1 := cx / z, base_y1 := cy / z }
      else
        .line { l with x2 := cx, y2 := cy, base_x2 := cx / z, base_y2 := cy / z }
  | .text t =>
      if d.handle.getD "" = "resize" then
        match d.initX, d.initY, d.initFontSize with
        | some ix, some iy, some ifs =>
            let idist := H.hypot (ix - t.x) (iy - t.y)
            let cdist := H.hypot (cx - t.x) (cy - t.y)
            let idist1 := if idist = 0 then 1 else idist
            let ratio := cdist / idist1
            let nfs := max 8 (pyInt ((ifs : ℚ) * ratio))
            .text { t with font_size := nfs, base_font_size := (nfs : ℚ) / z }
        | _, _, _ => .text t
      else .text t

/-- The `rotating` branch of `App.on_canvas_drag`, for non-text shapes (the
source skips text entirely).  Mirrors the source order of effects: the bearing
is computed first (reading `shp.y`, `shp.x`), the init keys are recorded on the
first event (reading `shp.angle` — an `AttributeError` on `CircleShape`), and
only then is the angle written.  A raised exception aborts the handler. -/
def Shape.rotateStep (H : Host) (d : DragData) (cx cy : ℚ) :
    Shape → Except String (Shape × DragData)
  | .text t => .ok (.text t, d)
  | .line _ => .error "AttributeError: LineShape object has no attribute y"
  | .circle s =>
      match d.initRotateAngle with
      | none => .error "AttributeError: CircleShape object has no attribute angle"
      | some _ =>
          match d.initShapeAngle with
          | none => .error "KeyError: init_shape_angle"
          | some _ =>
              -- In Python this write would create a fresh `angle` attribute on
              -- the circle; the state needed to reach it (a recorded rotate
              -- session on a circle) is itself unreachable, because the first
              -- rotate event on a circle raises before recording completes.
              .ok (.circle s, d)
  | .rect r =>
      let cur := H.atan2Deg (cy - r.y) (cx - r.x)
      match d.initRotateAngle with
      | none =>
          let d1 := { d with initRotateAngle := some cur,
                             initShapeAngle := some r.angle }
          .ok (.rect { r with angle := pymod (r.angle + (cur - cur)) 360 }, d1)
      | some b0 =>
          match d.initShapeAngle with
          | none => .error "KeyError: init_shape_angle"
          | some a0 =>
              .ok (.rect { r with angle := pymod (a0 + (cur - b0)) 360 }, d)
  | .hourglass g =>
      let cur := H.atan2Deg (cy - g.y) (cx - g.x)
      match d.initRotateAngle with
      | none =>
          let d1 := { d with initRotateAngle := some cur,
                             initShapeAngle := some g.angle }
          .ok (.hourglass { g with angle := pymod (g.angle + (cur - cur)) 360 }, d1)
      | some b0 =>
          match d.initShapeAngle with
          | none => .error "KeyError: init_shape_angle"
          | some a0 =>
              .ok (.hourglass { g with angle := pymod (a0 + (cur - b0)) 360 }, d)

/-- The `apply_zoom` per-shape attribute recomputation: every displayed
attribute becomes the base attribute times the zoom level; the text font size
is `int(base * zoom)`. -/
def Shape.zoomAttrs (z : ℚ) : Shape → Shape
  | .rect r =>
      .rect { r with x := r.base_x * z, y := r.base_y * z,
                     width := r.base_width * z, height := r.base_height * z }
  | .circle s =>
      .circle { s with x := s.base_x * z, y := s.base_y * z,
                       radius := s.base_radius * z }
  | .hourglass g =>
      .hourglass { g with x := g.base_x * z, y := g.base_y * z,
                          width := g.base_width * z, height := g.base_height * z }
  | .line l =>
      .line { l with x1 := l.base_x1 * z, y1 := l.base_y1 * z,
                     x2 := l.base_x2 * z, y2 := l.base_y2 * z }
  | .text t =>
      .text { t with x := t.base_x * z, y := t.base_y * z,
                     font_size := pyInt (t.base_font_size * z) }

/-- The application state: canvas, shape sequence in creation order, selection
and creation indices (the source holds object references; list identity is
positional here), tool, mode, drag bookkeeping and the zoom level. -/
structure App where
  canvas : Canvas
  shapes : List Shape
  selected_shape : Option ℕ
  current_tool : String
  current_shape : Option ℕ
  mode : String
  drag_data : DragData
  zoom_level : ℚ
deriving DecidableEq

/-- The state after `App.__init__` (tool `select`, mode `idle`, zoom 1, no
image loaded). -/
def App.initState : App :=
  ⟨⟨[], 0⟩, [], none, "select", none, "idle", DragData.empty, 1⟩

/-- `App.deselect_all`. -/
def App.deselect_all (st : App) : App :=
  match st.selected_shape with
  | none => { st with selected_shape := none }
  | some i =>
      match st.shapes.get? i with
      | none => { st with selected_shape := none }
      | some sh =>
          let p := Shape.deselect st.canvas sh
          { st with canvas := p.1, shapes := st.shapes.set i p.2,
                    selected_shape := none }

/-- `App.select_shape`: deselect, select the target (drawing its handles),
then raise its primitive and handles to the top of the display list. -/
def App.select_shape (H : Host) (st : App) (i : ℕ) : App :=
  let st1 := st.deselect_all
  match st1.shapes.get? i with
  | none => { st1 with selected_shape := some i }
  | some sh =>
      let p := Shape.select H st1.canvas sh
      let c2 := match p.2.itemOf with
        | some it => p.1.tag_raise it
        | none => p.1
      let c3 := p.2.handlesOf.foldl (fun acc q => acc.tag_raise q.2) c2
      { st1 with canvas := c3, shapes := st1.shapes.set i p.2,
                 selected_shape := some i }

/-- The shared body of the tool setters (`set_select_tool`, `set_rectangle_tool`,
...): record the tool, deselect, force mode `idle`. -/
def App.set_tool (st : App) (t : String) : App :=
  let st1 := App.deselect_all { st with current_tool := t }
  { st1 with mode := "idle" }

/-- `App.delete_selected_shape`: delete the primitive and handle items, remove
the shape from the sequence, clear the selection; the mode is not touched. -/
def App.delete_selected_shape (st : App) : App :=
  match st.selected_shape with
  | none => st
  | some i =>
      match st.shapes.get? i with
      | none => { st with selected_shape := none }
      | some sh =>
          let c1 := match sh.itemOf with
            | some it => st.canvas.deleteItem it
            | none => st.canvas
          let p := Shape.delete_handles c1 sh
          { st with canvas := p.1, shapes := st.shapes.eraseIdx i,
                    selected_shape := none }

/-- `App.apply_zoom`'s per-shape loop body: recompute displayed attributes,
delete and recreate the rendering primitive, and redraw handles if selected. -/
def applyZoomShape (H : Host) (z : ℚ) (c : Canvas) (sh : Shape) :
    Canvas × Shape :=
  let sh1 := Shape.zoomAttrs z sh
  let c1 := match sh1.itemOf with
    | some it => c.deleteItem it
    | none => c
  let sh2 := sh1.withItem none
  let p := Shape.draw H c1 sh2
  if p.2.selectedFlag then Shape.draw_handles H p.1 p.2 else p

/-- The `for shp in self.shapes` loop of `apply_zoom`. -/
def applyZoomList (H : Host) (z : ℚ) (c : Canvas) :
    List Shape → Canvas × List Shape
  | [] => (c, [])
  | sh :: rest =>
      let p := applyZoomShape H z c sh
      let q := applyZoomList H z p.1 rest
      (q.1, p.2 :: q.2)

/-- `App.apply_zoom` (the background-image rescale and scrollregion update are
host-side and carry no shape state). -/
def App.apply_zoom (H : Host) (st : App) : App :=
  let p := applyZoomList H st.zoom_level st.canvas st.shapes
  { st with canvas := p.1, shapes := p.2 }

/-- `App.zoom_in`. -/
def App.zoom_in (H : Host) (st : App) : App :=
  if st.zoom_level < 5 then
    App.apply_zoom H { st with zoom_level := st.zoom_level + 1 / 10 }
  else st

/-- `App.zoom_out`. -/
def App.zoom_out (H : Host) (st : App) : App :=
  if st.zoom_level > 1 / 10 then
    App.apply_zoom H { st with zoom_level := st.zoom_level - 1 / 10 }
  else st

/-- `App.reset_zoom`. -/
def App.reset_zoom (H : Host) (st : App) : App :=
  App.apply_zoom H { st with zoom_level := 1 }

/-- The zoom-level transition of `zoom_in`. -/
def zoomInLevel (z : ℚ) : ℚ := if z < 5 then z + 1 / 10 else z

/-- The zoom-level transition of `zoom_out`. -/
def zoomOutLevel (z : ℚ) : ℚ := if z > 1 / 10 then z - 1 / 10 else z

/-- Zoom levels reachable from the startup level 1.0 by any sequence of
`zoom_in` / `zoom_out` / `reset_zoom`. -/
inductive ReachableZoom : ℚ → Prop
  | start : ReachableZoom 1
  | zin {z : ℚ} : ReachableZoom z → ReachableZoom (zoomInLevel z)
  | zout {z : ℚ} : ReachableZoom z → ReachableZoom (zoomOutLevel z)
  | reset {z : ℚ} : ReachableZoom z → ReachableZoom 1

/-- Displayed attributes equal base attributes times `z` (font size rounded to
an integer by Python `int`). -/
def zoomSynced (z : ℚ) : Shape → Bool
  | .rect r =>
      decide (r.x = r.base_x * z ∧ r.y = r.base_y * z ∧
              r.width = r.base_width * z ∧ r.height = r.base_height * z)
  | .circle s =>
      decide (s.x = s.base_x * z ∧ s.y = s.base_y * z ∧
              s.radius = s.base_radius * z)
  | .hourglass g =>
      decide (g.x = g.base_x * z ∧ g.y = g.base_y * z ∧
              g.width = g.base_width * z ∧ g.height = g.base_height * z)
  | .line l =>
      decide (l.x1 = l.base_x1 * z ∧ l.y1 = l.base_y1 * z ∧
              l.x2 = l.base_x2 * z ∧ l.y2 = l.base_y2 * z)
  | .text t =>
      decide (t.x = t.base_x * z ∧ t.y = t.base_y * z ∧
              t.font_size = pyInt (t.base_font_size * z))

/-- Whether a handle rectangle's reported bbox contains the point. -/
def handleRegionContains (c : Canvas) (hid : ℕ) (cx cy : ℚ) : Bool :=
  match c.bbox hid with
  | some (bx1, by1, bx2, by2) =>
      decide (bx1 ≤ cx ∧ cx ≤ bx2 ∧ by1 ≤ cy ∧ cy ≤ by2)
  | none => false

/-- Entering `resizing` from a handle hit: record the handle name, and for a
text resize also the initial pointer position and font size. -/
def enterResizing (st : App) (sh : Shape) (hname : String) (cx cy : ℚ) : App :=
  let d := { st.drag_data with handle := some hname }
  let d2 := match sh with
    | .text t =>
        if hname = "resize" then
          { d with initX := some cx, initY := some cy,
                   initFontSize := some t.font_size }
        else d
    | _ => d
  { st with mode := "resizing", drag_data := d2 }

/-- Entering `move` on a shape-body hit: select the shape, record the drag
anchor. -/
def enterMove (H : Host) (st : App) (i : ℕ) (cx cy : ℚ) : App :=
  let st1 := App.select_shape H st i
  { st1 with mode := "move", drag_data := DragData.anchor cx cy }

/-- Deselect and return to `idle`. -/
def idleDeselect (st : App) : App :=
  { st.deselect_all with mode := "idle" }

def drawingTools : List String := ["rectangle", "circle", "hourglass", "line", "text"]

/-- The freshly constructed shape for each drawing tool, with the fixed
default geometry from `on_canvas_click`. -/
def mkShapeForTool (tool : String) (cx cy : ℚ) : Option Shape :=
  if tool = "rectangle" then some (.rect (RectangleShape.make cx cy 100 60))
  else if tool = "circle" then some (.circle (CircleShape.make cx cy 50))
  else if tool = "hourglass" then some (.hourglass (HourglassShape.make cx cy 60 40))
  else if tool = "line" then some (.line (LineShape.make cx cy (cx + 50) cy))
  else if tool = "text" then some (.text (TextShape.make cx cy "" 20))
  else none

/-- The shape-creation branch of `on_canvas_click`: enter `create`, construct
the default shape, append it, draw it, record the anchor. -/
def createAt (H : Host) (st : App) (cx cy : ℚ) : App :=
  match mkShapeForTool st.current_tool cx cy with
  | none => { st with mode := "create" }
  | some sh0 =>
      let p := Shape.draw H st.canvas sh0
      { st with mode := "create", canvas := p.1,
                shapes := st.shapes ++ [p.2],
                current_shape := some st.shapes.length,
                drag_data := DragData.anchor cx cy }

/-- The handle loop at the top of `on_canvas_click`: walk the selected shape's
handles in insertion order; on the first handle whose bbox contains the point,
enter `resizing` for `resize`/`end1`/`end2` or `rotating` for `rotate`; any
other handle name (the text `bbox` outline) falls through to later handles. -/
def clickHandleLoop (st : App) (sh : Shape) (cx cy : ℚ) :
    List (String × ℕ) → Option App
  | [] => none
  | (hname, hid) :: rest =>
      if handleRegionContains st.canvas hid cx cy then
        if hname = "resize" ∨ hname = "end1" ∨ hname = "end2" then
          some (enterResizing st sh hname cx cy)
        else if hname = "rotate" then
          some { st with mode := "rotating" }
        else clickHandleLoop st sh cx cy rest
      else clickHandleLoop st sh cx cy rest

/-- The `for s in reversed(self.shapes)` body-hit scan of `on_canvas_click`. -/
def clickScanLoop (H : Host) (st : App) (cx cy : ℚ) :
    List (ℕ × Shape) → App
  | [] =>
      if st.mode = "edit" then idleDeselect st
      else if st.current_tool ∈ drawingTools ∧ st.mode = "idle" then
        createAt H st cx cy
      else if st.current_tool = "select" then idleDeselect st
      else st
  | (i, sh) :: rest =>
      if Shape.contains_point H sh cx cy then enterMove H st i cx cy
      else clickScanLoop H st cx cy rest

/-- `App.on_canvas_click`, translated statement by statement. -/
def App.on_canvas_click (H : Host) (st : App) (cx cy : ℚ) : App :=
  let handleOutcome :=
    match st.selected_shape with
    | none => none
    | some i =>
        match st.shapes.get? i with
        | none => none
        | some sh => clickHandleLoop st sh cx cy sh.handlesOf
  match handleOutcome with
  | some st1 => st1
  | none => clickScanLoop H st cx cy st.shapes.enum.reverse

/-- Whether a handle name is one the click handler reacts to. -/
def namedHandle (n : String) : Bool :=
  n = "resize" || n = "end1" || n = "end2" || n = "rotate"

/-- The first reactive handle of the selected shape whose region contains the
point, following the spec's sentence for priority rule 1. -/
def specSelectedHandleHit (st : App) (cx cy : ℚ) : Option (Shape × String) :=
  match st.selected_shape with
  | none => none
  | some i =>
      match st.shapes.get? i with
      | none => none
      | some sh =>
          ((sh.handlesOf.filter (fun p => namedHandle p.1)).find?
              (fun p => handleRegionContains st.canvas p.2 cx cy)).map
            (fun p => (sh, p.1))

/-- The pointer-down transition relation exactly as the specification states
it: five prioritized rules, first match wins.  Bookkeeping the spec leaves
open (which drag keys are recorded) is shared with the translation via the
helpers `enterResizing`, `enterMove`, `createAt`, `idleDeselect`. -/
def clickSpec (H : Host) (st : App) (cx cy : ℚ) : App :=
  match specSelectedHandleHit st cx cy with
  | some (sh, hname) =>
      if hname = "rotate" then { st with mode := "rotating" }
      else enterResizing st sh hname cx cy
  | none =>
      match st.shapes.enum.reverse.find?
          (fun p => Shape.contains_point H p.2 cx cy) with
      | some p => enterMove H st p.1 cx cy
      | none =>
          if st.mode = "edit" then idleDeselect st
          else if st.current_tool ∈ drawingTools ∧ st.mode = "idle" then
            createAt H st cx cy
          else if st.current_tool = "select" then idleDeselect st
          else st

/-- Redraw the shape at index `i` after a drag-geometry update and record the
final `drag_data["x"] = cx; drag_data["y"] = cy` writes. -/
def App.redrawAt (H : Host) (st : App) (i : ℕ) (sh1 : Shape) (d : DragData)
    (cx cy : ℚ) : App :=
  let p := Shape.draw H st.canvas sh1
  let q := Shape.draw_handles H p.1 p.2
  { st with canvas := q.1, shapes := st.shapes.set i q.2,
            drag_data := { d with x := some cx, y := some cy } }

/-- `App.on_canvas_drag`, translated statement by statement.  The handler
returns early (without touching `drag_data`) when no shape is selected; a
Python exception escaping the handler is an `Except.error`. -/
def App.on_canvas_drag (H : Host) (st : App) (cx cy : ℚ) :
    Except String App :=
  match st.selected_shape with
  | none => .ok st
  | some i =>
      match st.shapes.get? i with
      | none => .ok st
      | some sh =>
          let dx := cx - st.drag_data.x.getD cx
          let dy := cy - st.drag_data.y.getD cy
          if st.mode = "create" ∨ st.mode = "move" then
            .ok (st.redrawAt H i (Shape.translateShape st.zoom_level dx dy sh)
                  st.drag_data cx cy)
          else if st.mode = "resizing" then
            .ok (st.redrawAt H i
                  (Shape.resizeShape H st.zoom_level st.drag_data cx cy sh)
                  st.drag_data cx cy)
          else if st.mode = "rotating" then
            match sh with
            | .text _ =>
                .ok { st with drag_data :=
                        { st.drag_data with x := some cx, y := some cy } }
            | _ =>
                match Shape.rotateStep H st.drag_data cx cy sh with
                | .error e => .error e
                | .ok r => .ok (st.redrawAt H i r.1 r.2 cx cy)
          else
            .ok { st with drag_data :=
                    { st.drag_data with x := some cx, y := some cy } }

/-- The modal `edit_text` on the shape at index `j`, followed by the redraw the
source performs. -/
def App.editTextAt (H : Host) (st : App) (j : ℕ) : App :=
  match st.shapes.get? j with
  | some (.text t) =>
      let p := Shape.draw H st.canvas (.text { t with text := H.promptText })
      let q := Shape.draw_handles H p.1 p.2
      { st with canvas := q.1, shapes := st.shapes.set j q.2 }
  | _ => st

/-- `App.on_canvas_release`, translated statement by statement. -/
def App.on_canvas_release (H : Host) (st : App) : App :=
  let st0 := { st with drag_data :=
    { st.drag_data with initRotateAngle := none, initShapeAngle := none } }
  match st0.current_shape with
  | some j =>
      if st0.mode = "create" then
        let st1 := App.select_shape H st0 j
        let st2 := { st1 with mode := "edit" }
        let st3 := if st2.current_tool = "text" then st2.editTextAt H j else st2
        { st3 with current_shape := none }
      else if st0.selected_shape.isSome then { st0 with mode := "edit" }
      else { st0 with mode := "idle" }
  | none =>
      if st0.selected_shape.isSome then { st0 with mode := "edit" }
      else { st0 with mode := "idle" }

/-- Ids of the shape primitives in creation order. -/
def shapeItemIds (st : App) : List ℕ :=
  st.shapes.filterMap Shape.itemOf

/-- The display-list ids of a canvas, bottom to top. -/
def idsOf (c : Canvas) : List ℕ := c.items.map Prod.fst

/-- The shape primitives in current draw (z) order, bottom to top. -/
def drawOrder (st : App) : List ℕ :=
  (idsOf st.canvas).filter (fun a => decide (a ∈ shapeItemIds st))

/-- A draw-order projection relative to a fixed id set, for stating how the
canvas operations move shape primitives. -/
def dOrd (S : List ℕ) (c : Canvas) : List ℕ :=
  (idsOf c).filter (fun a => decide (a ∈ S))

/-- The rotate-handle position the specification text claims for rectangles:
local `(0, -h/2 - 20)` rotated with the shape.  Written from the spec's words
for comparison with `rotate_handle_center`. -/
def claimedRotateHandleCenter (s : RectangleShape) (cos_a sin_a : ℚ) : ℚ × ℚ :=
  (s.x + (0 : ℚ) * cos_a - (-(s.height / 2) - 20) * sin_a,
   s.y + (0 : ℚ) * sin_a + (-(s.height / 2) - 20) * cos_a)

/-- The recorded rotation session: bearing at drag start and shape angle at
drag start; on the first drag event both are taken from the current bearing
and the current angle. -/
def rotSession (d : DragData) (bearing fallback : ℚ) : ℚ × ℚ :=
  match d.initRotateAngle with
  | none => (bearing, fallback)
  | some b0 => (b0, d.initShapeAngle.getD fallback)

/-- A concrete host for witnesses and counterexamples.  All shapes evaluated
with it have angle 0, where the real math library returns cosine 1 and sine 0;
`hypot` is only sampled at `(0, 0)`, where the real value is 0. -/
def host0 : Host :=
  ⟨fun _ => 1, fun _ => 0, fun _ _ => 0, fun _ _ => 0,
   fun _ _ x y => (x, y, x + 50, y + 20), ""⟩

/-- A rectangle rotated to 90 degrees (where cosine is 0 and sine is 1). -/
def rect90 : RectangleShape := { RectangleShape.make 0 0 100 60 with angle := 90 }

/-- The 100-unit horizontal line of the spec's scenario. -/
def lineH : LineShape := LineShape.make 0 0 100 0

/-- Selected circle in `rotating` mode with an empty drag session: the state
right after pointer-down on a circle's rotate handle. -/
def stC3 : App :=
  ⟨⟨[(0, .prim)], 1⟩,
   [.circle ⟨⟨true, [], some 0⟩, 100, 100, 50, 100, 100, 50⟩],
   some 0, "select", none, "rotating", DragData.empty, 1⟩

/-- The state right after pointer-down with the rectangle tool on an empty
canvas: mode `create`, the new shape appended, nothing selected. -/
def stC2 : App :=
  App.on_canvas_click host0 (App.set_tool App.initState "rectangle") 100 100

/-- Displayed center x of the first shape, when it is a rectangle. -/
def firstRectX (st : App) : Option ℚ :=
  match st.shapes.head? with
  | some (.rect r) => some r.x
  | _ => none

/-- Move-mode state at zoom 2 with a selected circle whose base coordinates
are in sync (`base = displayed / zoom`), drag anchor at (100, 100). -/
def stC2w : App :=
  ⟨⟨[(0, .prim)], 1⟩,
   [.circle ⟨⟨true, [], some 0⟩, 50, 50, 25, 100, 100, 50⟩],
   some 0, "select", none, "move", DragData.anchor 100 100, 2⟩

/-- Resizing-mode state with a selected circle and the `resize` handle
recorded. -/
def stC5w : App :=
  ⟨⟨[(0, .prim)], 1⟩,
   [.circle ⟨⟨true, [], some 0⟩, 100, 100, 50, 100, 100, 50⟩],
   some 0, "select", none, "resizing",
   { DragData.empty with handle := some "resize" }, 1⟩

/-- Rotating-mode state with a selected rectangle and an empty drag session. -/
def stC6w : App :=
  ⟨⟨[(0, .prim)], 1⟩,
   [.rect ⟨⟨true, [], some 0⟩, 100, 100, 100, 60, 100, 100, 100, 60, 0⟩],
   some 0, "select", none, "rotating", DragData.empty, 1⟩

/-- State with one circle whose displayed attributes are stale, at the zoom
level reached by one `zoom_in` from startup. -/
def stW1 : App :=
  ⟨⟨[(0, .prim)], 1⟩,
   [.circle ⟨⟨false, [], some 0⟩, 40, 60, 30, 999, 999, 999⟩],
   none, "select", none, "idle", DragData.empty, 11 / 10⟩

/-- Event chain: create rectangle A at (100,100), release; click empty space
twice (leaving `edit`, then creating rectangle B at (400,100)); release; then
click on A's body.  The final click selects A, which `select_shape` raises to
the top of the display list. -/
def c8a : App := App.set_tool App.initState "rectangle"

def c8b : App := App.on_canvas_click host0 c8a 100 100

def c8c : App := App.on_canvas_release host0 c8b

def c8d : App := App.on_canvas_click host0 c8c 400 100

def c8e : App := App.on_canvas_click host0 c8d 400 100

def c8f : App := App.on_canvas_release host0 c8e

def c8g : App := App.on_canvas_click host0 c8f 100 100

/-- Two unselected rectangles A (item 0) and B (item 3) with primitives in
creation order on the canvas; B carries stale handle items 4 and 5. -/
def c8w : App :=
  ⟨⟨[(0, .prim), (3, .prim), (4, .hrect (444, 124, 456, 136)),
     (5, .hrect (394, 44, 406, 56))], 6⟩,
   [.rect ⟨⟨false, [], some 0⟩, 100, 100, 100, 60, 100, 100, 100, 60, 0⟩,
    .rect ⟨⟨true, [("resize", 4), ("rotate", 5)], some 3⟩,
           400, 100, 100, 60, 400, 100, 100, 60, 0⟩],
   some 1, "select", none, "edit", DragData.empty, 1⟩

/-- Edit-mode state with one selected rectangle, for the deletion claim. -/
def stC10w : App :=
  ⟨⟨[(0, .prim), (1, .hrect (144, 124, 156, 136)),
     (2, .hrect (94, 44, 106, 56))], 3⟩,
   [.rect ⟨⟨true, [("resize", 1), ("rotate", 2)], some 0⟩,
          100, 100, 100, 60, 100, 100, 100, 60, 0⟩],
   some 0, "rectangle", none, "edit", DragData.empty, 1⟩

/-! ## Helper lemmas -/

theorem pymod_nonneg (x m : ℚ) (hm : 0 < m) : 0 ≤ pymod x m := by
  unfold pymod
  have h1 : (⌊x / m⌋ : ℚ) ≤ x / m := Int.floor_le _
  have h2 : m * (⌊x / m⌋ : ℚ) ≤ m * (x / m) :=
    mul_le_mul_of_nonneg_left h1 hm.le
  have h3 : m * (x / m) = x := by field_simp
  linarith

theorem pymod_lt (x m : ℚ) (hm : 0 < m) : pymod x m < m := by
  unfold pymod
  have h1 : x / m < (⌊x / m⌋ : ℚ) + 1 := Int.lt_floor_add_one _
  have h2 : m * (x / m) < m * ((⌊x / m⌋ : ℚ) + 1) :=
    mul_lt_mul_of_pos_left h1 hm
  have h3 : m * (x / m) = x := by field_simp
  nlinarith

theorem get?_set_self {α : Type _} (l : List α) (i : ℕ) (a b : α)
    (h : l.get? i = some b) : (l.set i a).get? i = some a := by
  induction l generalizing i with
  | nil => simp at h
  | cons hd tl ih =>
      cases i with
      | zero => simp
      | succ n => simpa using ih n (by simpa using h)

theorem stripUI_draw (H : Host) (c : Canvas) (sh : Shape) :
    ((Shape.draw H c sh).2).stripUI = sh.stripUI := by
  cases sh with
  | text t => simp [Shape.draw, Shape.stripUI]
  | rect r =>
      cases hit : r.core.item <;>
        simp [Shape.draw, Shape.stripUI, Shape.coreOf, Shape.withCore, hit]
  | circle s =>
      cases hit : s.core.item <;>
        simp [Shape.draw, Shape.stripUI, Shape.coreOf, Shape.withCore, hit]
  | hourglass g =>
      cases hit : g.core.item <;>
        simp [Shape.draw, Shape.stripUI, Shape.coreOf, Shape.withCore, hit]
  | line l =>
      cases hit : l.core.item <;>
        simp [Shape.draw, Shape.stripUI, Shape.coreOf, Shape.withCore, hit]

theorem stripUI_draw_handles (H : Host) (c : Canvas) (sh : Shape) :
    ((Shape.draw_handles H c sh).2).stripUI = sh.stripUI := by
  cases sh with
  | text t =>
      cases hb : t.bbox with
      | none =>
          simp [Shape.draw_handles, Shape.delete_handles, Shape.withHandles,
                Shape.withCore, Shape.coreOf, Shape.stripUI, hb]
      | some bb =>
          obtain ⟨bx1, by1, bx2, by2⟩ := bb
          simp [Shape.draw_handles, Shape.delete_handles, Shape.withHandles,
                Shape.withCore, Shape.coreOf, Shape.stripUI, hb]
  | rect r =>
      simp [Shape.draw_handles, Shape.delete_handles, Shape.withHandles,
            Shape.withCore, Shape.coreOf, Shape.stripUI]
  | circle s =>
      simp [Shape.draw_handles, Shape.delete_handles, Shape.withHandles,
            Shape.withCore, Shape.coreOf, Shape.stripUI]
  | hourglass g =>
      simp [Shape.draw_handles, Shape.delete_handles, Shape.withHandles,
            Shape.withCore, Shape.coreOf, Shape.stripUI]
  | line l =>
      simp [Shape.draw_handles, Shape.delete_handles, Shape.withHandles,
            Shape.withCore, Shape.coreOf, Shape.stripUI]

/-! ## Claim theorems -/

/-- C3 (code_bug evidence): dragging a circle's rotate handle raises.  In the
state reached by pressing on a selected circle's rotate handle (mode
`rotating`, empty drag session), the first pointer-drag event reads
`shp.angle`, which `CircleShape` never defines: the handler raises
`AttributeError` instead of performing the claimed no-op. -/
theorem circle_rotate_drag_raises (cx cy : ℚ) :
    App.on_canvas_drag host0 stC3 cx cy =
      .error "AttributeError: CircleShape object has no attribute angle" := rfl

/-- C9 (counterexample): at angle 90 degrees (cosine 0, sine 1) the rotate
handle the code draws, `(30, -20)` for a 100 by 60 rectangle centered at the
origin, is not the spec's "local `(0, -h/2 - 20)` rotated with the shape",
which would be `(50, 0)`: the 20-unit offset is applied after rotation, in
canvas coordinates. -/
theorem rect_rotate_handle_not_rotated :
    RectangleShape.rotate_handle_center rect90 0 1 = (30, -20) ∧
    claimedRotateHandleCenter rect90 0 1 = (50, 0) ∧
    RectangleShape.rotate_handle_center rect90 0 1 ≠
      claimedRotateHandleCenter rect90 0 1 := by
  refine ⟨by decide, by decide, by decide⟩

/-- C9 (amended): for every rectangle and every cosine/sine pair, the resize
handle is centered at the bottom-right corner `(w/2, h/2)` rotated with the
shape, exactly as claimed; the rotate handle is centered 20 canvas units above
the rotated top-edge midpoint, i.e. at rotated `(0, -h/2)` plus the unrotated
offset `(0, -20)`. -/
theorem rect_handle_positions (s : RectangleShape) (cos_a sin_a : ℚ) :
    s.resize_handle_center cos_a sin_a =
      (s.x + s.width / 2 * cos_a - s.height / 2 * sin_a,
       s.y + s.width / 2 * sin_a + s.height / 2 * cos_a) ∧
    s.rotate_handle_center cos_a sin_a =
      (s.x + s.height / 2 * sin_a, s.y - s.height / 2 * cos_a - 20) := by
  constructor
  · simp [RectangleShape.resize_handle_center, RectangleShape.get_corners,
          List.getD]
  · simp only [RectangleShape.rotate_handle_center, RectangleShape.get_corners,
               List.map_cons, List.getD, List.getElem?_cons_zero,
               List.getElem?_cons_succ, Option.getD_some]
    refine Prod.ext ?_ ?_ <;> simp <;> ring

/-- C7 (counterexample): for the line from (0,0) to (100,0) and the point
(-3, 0), the projection parameter is negative; the claimed clamped test
accepts the point (distance 3 from the clamped projection (0,0)), but the
code's `contains_point` returns false — the code does not clamp. -/
theorem line_contains_point_clamp_cex :
    LineShape.containsPointClamped lineH (-3) 0 = true ∧
    LineShape.contains_point lineH (-3) 0 = false := by
  refine ⟨by decide, by decide⟩

/-- C7 (amended): `contains_point` projects the point onto the segment and
returns true iff the projection parameter stays within `[0, 1]` and the
squared distance to the projection is within the 5-unit tolerance (a
projection parameter outside `[0, 1]` yields false — no clamping); a
zero-length line falls back to the `< 5` bounding-box check around its single
point; for the line (0,0)-(100,0), the point (50,3) is accepted and (50,10)
rejected. -/
theorem line_contains_point_characterization :
    (∀ (l : LineShape) (px py : ℚ),
      l.contains_point px py = true ↔
        (((l.x2 - l.x1) ^ 2 + (l.y2 - l.y1) ^ 2 = 0 ∧
            |px - l.x1| < 5 ∧ |py - l.y1| < 5) ∨
         ((l.x2 - l.x1) ^ 2 + (l.y2 - l.y1) ^ 2 ≠ 0 ∧
            0 ≤ l.lineU px py ∧ l.lineU px py ≤ 1 ∧
            (px - (l.x1 + l.lineU px py * (l.x2 - l.x1))) ^ 2 +
              (py - (l.y1 + l.lineU px py * (l.y2 - l.y1))) ^ 2 ≤ 25))) ∧
    lineH.contains_point 50 3 = true ∧ lineH.contains_point 50 10 = false := by
  refine ⟨fun l px py => ?_, by decide, by decide⟩
  simp only [LineShape.contains_point]
  by_cases h0 : (l.x2 - l.x1) ^ 2 + (l.y2 - l.y1) ^ 2 = 0
  · rw [if_pos h0]
    simp only [Bool.and_eq_true, decide_eq_true_eq, h0, ne_eq,
               not_true_eq_false, false_and, or_false, true_and]
  · rw [if_neg h0]
    by_cases hu : l.lineU px py < 0 ∨ l.lineU px py > 1
    · rw [if_pos hu]
      constructor
      · intro h
        exact absurd h (by simp)
      · rintro (⟨h, _⟩ | ⟨_, h1, h2, _⟩)
        · exact absurd h h0
        · rcases hu with hu | hu <;> linarith
    · rw [if_neg hu]
      push_neg at hu
      simp only [decide_eq_true_eq, h0, ne_eq, not_true_eq_false, false_and,
                 not_false_eq_true, true_and, false_or]
      constructor
      · intro h
        exact ⟨hu.1, hu.2, h⟩
      · rintro ⟨_, _, h⟩
        exact h

theorem zoomSynced_zoomAttrs (z : ℚ) (sh : Shape) :
    zoomSynced z (Shape.zoomAttrs z sh) = true := by
  cases sh <;> simp [Shape.zoomAttrs, zoomSynced]

theorem zoomSynced_withItem (z : ℚ) (sh : Shape) (o : Option ℕ) :
    zoomSynced z (sh.withItem o) = zoomSynced z sh := by
  cases sh <;> simp [Shape.withItem, Shape.withCore, Shape.coreOf, zoomSynced]

theorem zoomSynced_draw (H : Host) (c : Canvas) (z : ℚ) (sh : Shape) :
    zoomSynced z ((Shape.draw H c sh).2) = zoomSynced z sh := by
  cases sh with
  | text t => simp [Shape.draw, zoomSynced]
  | rect r =>
      cases hit : r.core.item <;>
        simp [Shape.draw, zoomSynced, Shape.coreOf, Shape.withCore, hit]
  | circle s =>
      cases hit : s.core.item <;>
        simp [Shape.draw, zoomSynced, Shape.coreOf, Shape.withCore, hit]
  | hourglass g =>
      cases hit : g.core.item <;>
        simp [Shape.draw, zoomSynced, Shape.coreOf, Shape.withCore, hit]
  | line l =>
      cases hit : l.core.item <;>
        simp [Shape.draw, zoomSynced, Shape.coreOf, Shape.withCore, hit]

theorem zoomSynced_draw_handles (H : Host) (c : Canvas) (z : ℚ) (sh : Shape) :
    zoomSynced z ((Shape.draw_handles H c sh).2) = zoomSynced z sh := by
  cases sh with
  | text t =>
      cases hb : t.bbox with
      | none =>
          simp [Shape.draw_handles, Shape.delete_handles, Shape.withHandles,
                Shape.withCore, Shape.coreOf, zoomSynced, hb]
      | some bb =>
          obtain ⟨bx1, by1, bx2, by2⟩ := bb
          simp [Shape.draw_handles, Shape.delete_handles, Shape.withHandles,
                Shape.withCore, Shape.coreOf, zoomSynced, hb]
  | rect r =>
      simp [Shape.draw_handles, Shape.delete_handles, Shape.withHandles,
            Shape.withCore, Shape.coreOf, zoomSynced]
  | circle s =>
      simp [Shape.draw_handles, Shape.delete_handles, Shape.withHandles,
            Shape.withCore, Shape.coreOf, zoomSynced]
  | hourglass g =>
      simp [Shape.draw_handles, Shape.delete_handles, Shape.withHandles,
            Shape.withCore, Shape.coreOf, zoomSynced]
  | line l =>
      simp [Shape.draw_handles, Shape.delete_handles, Shape.withHandles,
            Shape.withCore, Shape.coreOf, zoomSynced]

theorem zoomSynced_applyZoomShape (H : Host) (z : ℚ) (c : Canvas) (sh : Shape) :
    zoomSynced z ((applyZoomShape H z c sh).2) = true := by
  unfold applyZoomShape
  dsimp only
  split
  · rw [zoomSynced_draw_handles, zoomSynced_draw, zoomSynced_withItem,
        zoomSynced_zoomAttrs]
  · rw [zoomSynced_draw, zoomSynced_withItem, zoomSynced_zoomAttrs]

theorem zoomSynced_applyZoomList (H : Host) (z : ℚ) :
    ∀ (l : List Shape) (c : Canvas) (sh : Shape),
      sh ∈ (applyZoomList H z c l).2 → zoomSynced z sh = true := by
  intro l
  induction l with
  | nil => intro c sh h; simp [applyZoomList] at h
  | cons hd tl ih =>
      intro c sh h
      simp only [applyZoomList, List.mem_cons] at h
      rcases h with h | h
      · rw [h]; exact zoomSynced_applyZoomShape H z c hd
      · exact ih _ sh h

/-- The zoom buttons change the zoom level exactly by `zoomInLevel` /
`zoomOutLevel` / reset to 1 (the transitions generating `ReachableZoom`). -/
theorem zoom_button_levels (H : Host) (st : App) :
    (App.zoom_in H st).zoom_level = zoomInLevel st.zoom_level ∧
    (App.zoom_out H st).zoom_level = zoomOutLevel st.zoom_level ∧
    (App.reset_zoom H st).zoom_level = 1 := by
  refine ⟨?_, ?_, rfl⟩ <;>
    simp only [App.zoom_in, App.zoom_out, App.apply_zoom, zoomInLevel,
               zoomOutLevel] <;> split <;> rfl

/-- C1: for every zoom level reachable via `zoom_in`/`zoom_out`/`reset_zoom`
and every shape in the sequence, immediately after `apply_zoom` every
displayed simple attribute equals the base attribute times the zoom level
(x, y, width, height for rectangle and hourglass; x, y, radius for circle;
all four endpoint coordinates for line; x, y for text, with the font size the
integer truncation of base font size times zoom). -/
theorem apply_zoom_syncs_displayed (H : Host) (st : App)
    (hz : ReachableZoom st.zoom_level) :
    ∀ sh ∈ (App.apply_zoom H st).shapes, zoomSynced st.zoom_level sh = true := by
  intro sh h
  have := hz
  exact zoomSynced_applyZoomList H st.zoom_level st.shapes st.canvas sh h

/-- Witness for C1: the zoom level 11/10 is reachable (one `zoom_in` from the
startup level), and applying zoom to a state holding a circle with stale
displayed attributes leaves every shape synced. -/
theorem apply_zoom_syncs_displayed_witness :
    ReachableZoom stW1.zoom_level ∧
    ∀ sh ∈ (App.apply_zoom host0 stW1).shapes,
      zoomSynced stW1.zoom_level sh = true := by
  have hr : ReachableZoom stW1.zoom_level := by
    have h1 : ReachableZoom (zoomInLevel 1) := .zin .start
    have h2 : zoomInLevel 1 = stW1.zoom_level := by
      simp [zoomInLevel, stW1]
      decide
    rw [h2] at h1
    exact h1
  exact ⟨hr, apply_zoom_syncs_displayed host0 stW1 hr⟩

/-- C2 (counterexample): in `create` mode no shape is selected, and
`on_canvas_drag` returns early when `selected_shape` is `None` — the freshly
created shape does not follow the drag.  After pressing with the rectangle
tool at (100,100) (state `stC2`, mode `create`), a drag event to (120,120)
leaves the state unchanged: the new rectangle's displayed center x is still
100, not the 120 the claim's translation demands. -/
theorem create_drag_does_not_translate :
    App.on_canvas_drag host0 stC2 120 120 = .ok stC2 ∧
    stC2.mode = "create" ∧
    firstRectX stC2 = some 100 ∧ (100 : ℚ) ≠ 100 + 20 := by
  exact ⟨rfl, by decide, by decide, by norm_num⟩

/-- A shape whose UI-stripped form is a given circle's is that circle up to
UI bookkeeping: same constructor, same geometry fields. -/
theorem stripUI_eq_circle (sh : Shape) (s : CircleShape)
    (h : sh.stripUI = (Shape.circle s).stripUI) :
    ∃ s1, sh = .circle s1 ∧ s1.base_x = s.base_x ∧ s1.base_y = s.base_y ∧
      s1.base_radius = s.base_radius ∧ s1.x = s.x ∧ s1.y = s.y ∧
      s1.radius = s.radius := by
  cases sh with
  | circle s2 =>
      simp only [Shape.stripUI, Shape.circle.injEq, CircleShape.mk.injEq] at h
      exact ⟨s2, rfl, h.2.1, h.2.2.1, h.2.2.2.1, h.2.2.2.2.1, h.2.2.2.2.2.1,
             h.2.2.2.2.2.2⟩
  | rect r => simp [Shape.stripUI] at h
  | hourglass g => simp [Shape.stripUI] at h
  | line l => simp [Shape.stripUI] at h
  | text t => simp [Shape.stripUI] at h

/-- As `stripUI_eq_circle`, for rectangles. -/
theorem stripUI_eq_rect (sh : Shape) (s : RectangleShape)
    (h : sh.stripUI = (Shape.rect s).stripUI) :
    ∃ s1, sh = .rect s1 ∧ s1.base_x = s.base_x ∧ s1.base_y = s.base_y ∧
      s1.base_width = s.base_width ∧ s1.base_height = s.base_height ∧
      s1.x = s.x ∧ s1.y = s.y ∧ s1.width = s.width ∧ s1.height = s.height ∧
      s1.angle = s.angle := by
  cases sh with
  | rect s2 =>
      simp only [Shape.stripUI, Shape.rect.injEq, RectangleShape.mk.injEq] at h
      exact ⟨s2, rfl, h.2.1, h.2.2.1, h.2.2.2.1, h.2.2.2.2.1, h.2.2.2.2.2.1,
             h.2.2.2.2.2.2.1, h.2.2.2.2.2.2.2.1, h.2.2.2.2.2.2.2.2.1,
             h.2.2.2.2.2.2.2.2.2⟩
  | circle s2 => simp [Shape.stripUI] at h
  | hourglass g => simp [Shape.stripUI] at h
  | line l => simp [Shape.stripUI] at h
  | text t => simp [Shape.stripUI] at h

/-- As `stripUI_eq_circle`, for hourglasses. -/
theorem stripUI_eq_hourglass (sh : Shape) (s : HourglassShape)
    (h : sh.stripUI = (Shape.hourglass s).stripUI) :
    ∃ s1, sh = .hourglass s1 ∧ s1.base_x = s.base_x ∧ s1.base_y = s.base_y ∧
      s1.base_width = s.base_width ∧ s1.base_height = s.base_height ∧
      s1.x = s.x ∧ s1.y = s.y ∧ s1.width = s.width ∧ s1.height = s.height ∧
      s1.angle = s.angle := by
  cases sh with
  | hourglass s2 =>
      simp only [Shape.stripUI, Shape.hourglass.injEq,
                 HourglassShape.mk.injEq] at h
      exact ⟨s2, rfl, h.2.1, h.2.2.1, h.2.2.2.1, h.2.2.2.2.1, h.2.2.2.2.2.1,
             h.2.2.2.2.2.2.1, h.2.2.2.2.2.2.2.1, h.2.2.2.2.2.2.2.2.1,
             h.2.2.2.2.2.2.2.2.2⟩
  | circle s2 => simp [Shape.stripUI] at h
  | rect r => simp [Shape.stripUI] at h
  | line l => simp [Shape.stripUI] at h
  | text t => simp [Shape.stripUI] at h

/-- As `stripUI_eq_circle`, for text shapes. -/
theorem stripUI_eq_text (sh : Shape) (s : TextShape)
    (h : sh.stripUI = (Shape.text s).stripUI) :
    ∃ s1, sh = .text s1 ∧ s1.base_x = s.base_x ∧ s1.base_y = s.base_y ∧
      s1.base_font_size = s.base_font_size ∧ s1.x = s.x ∧ s1.y = s.y ∧
      s1.font_size = s.font_size := by
  cases sh with
  | text s2 =>
      simp only [Shape.stripUI, Shape.text.injEq, TextShape.mk.injEq] at h
      exact ⟨s2, rfl, h.2.1, h.2.2.1, h.2.2.2.1, h.2.2.2.2.1, h.2.2.2.2.2.1,
             h.2.2.2.2.2.2.2.1⟩
  | circle s2 => simp [Shape.stripUI] at h
  | rect r => simp [Shape.stripUI] at h
  | hourglass g => simp [Shape.stripUI] at h
  | line l => simp [Shape.stripUI] at h

/-- C2 (amended): a pointer-drag in mode `create` or `move` translates the
selected shape (if any) by the pointer delta since the last drag event and
writes its base coordinates back as displayed divided by the current zoom; in
particular a selected circle at zoom 2 whose base center is in sync, dragged
by displayed delta (20,20), has its base center move by exactly (10,10).  (In
the normal flow `create` mode has no selection, so create-drags move
nothing.) -/
theorem drag_translates_selected (H : Host) (st : App) (cx cy : ℚ) (i : ℕ)
    (sh : Shape)
    (hmode : st.mode = "create" ∨ st.mode = "move")
    (hsel : st.selected_shape = some i)
    (hget : st.shapes.get? i = some sh) :
    ∃ st', App.on_canvas_drag H st cx cy = .ok st' ∧
      ∃ sh', st'.shapes.get? i = some sh' ∧
        sh'.stripUI = (Shape.translateShape st.zoom_level
            (cx - st.drag_data.x.getD cx)
            (cy - st.drag_data.y.getD cy) sh).stripUI ∧
        (∀ s0, sh = .circle s0 →
          st.zoom_level = 2 →
          cx - st.drag_data.x.getD cx = 20 →
          cy - st.drag_data.y.getD cy = 20 →
          s0.base_x = s0.x / 2 → s0.base_y = s0.y / 2 →
          ∃ s1, sh' = .circle s1 ∧
            s1.base_x - s0.base_x = 10 ∧ s1.base_y - s0.base_y = 10) := by
  simp only [App.on_canvas_drag, hsel, hget]
  rw [if_pos hmode]
  refine ⟨_, rfl, ?_⟩
  simp only [App.redrawAt]
  have hstrip : ∀ sh1 : Shape,
      ((Shape.draw_handles H (Shape.draw H st.canvas sh1).1
          (Shape.draw H st.canvas sh1).2).2).stripUI = sh1.stripUI := by
    intro sh1
    rw [stripUI_draw_handles, stripUI_draw]
  refine ⟨_, get?_set_self st.shapes i _ sh hget, hstrip _, ?_⟩
  intro s0 hsh hz hdx hdy hbx hby
  subst hsh
  rw [hdx, hdy, hz]
  simp only [Shape.translateShape]
  have h2 := hstrip (Shape.translateShape st.zoom_level
    (cx - st.drag_data.x.getD cx) (cy - st.drag_data.y.getD cy) (.circle s0))
  rw [hdx, hdy, hz] at h2
  simp only [Shape.translateShape] at h2
  obtain ⟨s1, he, hb1, hb2, -, -, -, -⟩ := stripUI_eq_circle _ _ h2
  refine ⟨s1, he, ?_, ?_⟩
  · rw [hb1, hbx]; ring
  · rw [hb2, hby]; ring

/-- Witness for the amended C2: in state `stC2w` (selected circle at displayed
(100,100), base (50,50), zoom 2, anchor (100,100)), the drag to (120,120)
succeeds and moves the base center by exactly (10,10). -/
theorem drag_translates_selected_witness :
    ∃ st', App.on_canvas_drag host0 stC2w 120 120 = .ok st' ∧
      ∃ s1, st'.shapes.get? 0 = some (.circle s1) ∧
        s1.base_x - 50 = 10 ∧ s1.base_y - 50 = 10 := by
  obtain ⟨st', hok, sh', hget, hstrip, hcirc⟩ :=
    drag_translates_selected host0 stC2w 120 120 0 _ (Or.inr rfl) rfl rfl
  obtain ⟨s1, he, h1, h2⟩ :=
    hcirc _ rfl (by decide) (by decide) (by decide) (by decide) (by decide)
  exact ⟨st', hok, s1, by rw [← he]; exact hget, h1, h2⟩

/-- Drawing a shape and redrawing its handles never moves its geometry. -/
theorem stripUI_redraw (H : Host) (c : Canvas) (sh1 : Shape) :
    ((Shape.draw_handles H (Shape.draw H c sh1).1
        (Shape.draw H c sh1).2).2).stripUI = sh1.stripUI := by
  rw [stripUI_draw_handles, stripUI_draw]

/-- C5: every resize-drag succeeds (no error), and the resized shape's
displayed dimensions respect the defensive floors: rectangle and hourglass
width and height are clamped to at least 10, circle radius to at least 10 and
text font size to at least 8; dragging the resize handle onto the shape's own
center leaves the dimensions at exactly these minima. -/
theorem resize_drag_respects_floors (H : Host) (st : App) (cx cy : ℚ) (i : ℕ)
    (sh : Shape)
    (hmode : st.mode = "resizing")
    (hsel : st.selected_shape = some i)
    (hget : st.shapes.get? i = some sh) :
    ∃ st', App.on_canvas_drag H st cx cy = .ok st' ∧
      ∃ sh', st'.shapes.get? i = some sh' ∧
        sh'.stripUI =
          (Shape.resizeShape H st.zoom_level st.drag_data cx cy sh).stripUI ∧
        (∀ r, sh = .rect r → st.drag_data.handle = some "resize" →
          ∃ r1, sh' = .rect r1 ∧ 10 ≤ r1.width ∧ 10 ≤ r1.height ∧
            (cx = r.x → cy = r.y → r1.width = 10 ∧ r1.height = 10)) ∧
        (∀ g, sh = .hourglass g → st.drag_data.handle = some "resize" →
          ∃ g1, sh' = .hourglass g1 ∧ 10 ≤ g1.width ∧ 10 ≤ g1.height ∧
            (cx = g.x → cy = g.y → g1.width = 10 ∧ g1.height = 10)) ∧
        (∀ s0, sh = .circle s0 → st.drag_data.handle = some "resize" →
          ∃ s1, sh' = .circle s1 ∧ 10 ≤ s1.radius ∧
            (cx = s0.x → cy = s0.y → H.hypot 0 0 = 0 → s1.radius = 10)) ∧
        (∀ t, sh = .text t → st.drag_data.handle = some "resize" →
          ∀ ix iy ifs, st.drag_data.initX = some ix →
            st.drag_data.initY = some iy →
            st.drag_data.initFontSize = some ifs →
            ∃ t1, sh' = .text t1 ∧ 8 ≤ t1.font_size ∧
              (cx = t.x → cy = t.y → H.hypot 0 0 = 0 →
                t1.font_size = 8)) := by
  simp only [App.on_canvas_drag, hsel, hget]
  rw [hmode]
  rw [if_neg (by decide :
    ¬(("resizing" : String) = "create" ∨ ("resizing" : String) = "move"))]
  rw [if_pos rfl]
  refine ⟨_, rfl, ?_⟩
  simp only [App.redrawAt]
  refine ⟨_, get?_set_self st.shapes i _ sh hget,
    stripUI_redraw H st.canvas _, ?_, ?_, ?_, ?_⟩
  · -- rectangle
    intro r hsh hhandle
    subst hsh
    have h2 := stripUI_redraw H st.canvas
      (Shape.resizeShape H st.zoom_level st.drag_data cx cy (.rect r))
    simp only [Shape.resizeShape, hhandle, Option.getD_some, if_pos] at h2 ⊢
    obtain ⟨r1, he, -, -, -, -, -, -, hw, hh, -⟩ := stripUI_eq_rect _ _ h2
    refine ⟨r1, he, ?_, ?_, ?_⟩
    · rw [hw]; exact le_max_left _ _
    · rw [hh]; exact le_max_left _ _
    · intro hcx hcy
      constructor
      · rw [hw, hcx, hcy]; simp
      · rw [hh, hcx, hcy]; simp
  · -- hourglass
    intro g hsh hhandle
    subst hsh
    have h2 := stripUI_redraw H st.canvas
      (Shape.resizeShape H st.zoom_level st.drag_data cx cy (.hourglass g))
    simp only [Shape.resizeShape, hhandle, Option.getD_some, if_pos] at h2 ⊢
    obtain ⟨g1, he, -, -, -, -, -, -, hw, hh, -⟩ := stripUI_eq_hourglass _ _ h2
    refine ⟨g1, he, ?_, ?_, ?_⟩
    · rw [hw]; exact le_max_left _ _
    · rw [hh]; exact le_max_left _ _
    · intro hcx hcy
      constructor
      · rw [hw, hcx, hcy]; simp
      · rw [hh, hcx, hcy]; simp
  · -- circle
    intro s0 hsh hhandle
    subst hsh
    have h2 := stripUI_redraw H st.canvas
      (Shape.resizeShape H st.zoom_level st.drag_data cx cy (.circle s0))
    simp only [Shape.resizeShape, hhandle, Option.getD_some, if_pos] at h2 ⊢
    obtain ⟨s1, he, -, -, -, -, -, hr⟩ := stripUI_eq_circle _ _ h2
    refine ⟨s1, he, ?_, ?_⟩
    · rw [hr]; exact le_max_left _ _
    · intro hcx hcy hz
      rw [hr, hcx, hcy]
      simp [hz]
  · -- text
    intro t hsh hhandle ix iy ifs hix hiy hifs
    subst hsh
    have h2 := stripUI_redraw H st.canvas
      (Shape.resizeShape H st.zoom_level st.drag_data cx cy (.text t))
    simp only [Shape.resizeShape, hhandle, Option.getD_some, if_pos,
               hix, hiy, hifs] at h2 ⊢
    obtain ⟨t1, he, -, -, -, -, -, hf⟩ := stripUI_eq_text _ _ h2
    refine ⟨t1, he, ?_, ?_⟩
    · rw [hf]; exact le_max_left _ _
    · intro hcx hcy hz
      rw [hf, hcx, hcy]
      simp [hz, pyInt]

/-- Witness for C5: dragging the resize handle of the selected circle in
`stC5w` onto its own center (100,100) succeeds and clamps the radius to
exactly 10. -/
theorem resize_drag_respects_floors_witness :
    ∃ st', App.on_canvas_drag host0 stC5w 100 100 = .ok st' ∧
      ∃ s1, st'.shapes.get? 0 = some (.circle s1) ∧ s1.radius = 10 := by
  obtain ⟨st', hok, sh', hget, hstrip, hrect, hhg, hcirc, htext⟩ :=
    resize_drag_respects_floors host0 stC5w 100 100 0 _ rfl rfl rfl
  obtain ⟨s1, he, hge, hcenter⟩ := hcirc _ rfl rfl
  exact ⟨st', hok, s1, by rw [← he]; exact hget, hcenter rfl rfl rfl⟩

/-- C6: a rotating-drag on a rectangle or hourglass succeeds and sets the
angle to (angle-at-drag-start + (current bearing − bearing-at-drag-start))
mod 360 — on the first event of the session both start values are recorded
from the current state, giving delta 0 — and the updated angle always lies in
[0, 360).  The hypothesis rules out the malformed session (a recorded start
bearing without a recorded start angle, which only the circle crash can
leave behind, and which would raise `KeyError`). -/
theorem rotating_drag_wraps (H : Host) (st : App) (cx cy : ℚ) (i : ℕ)
    (sh : Shape)
    (hmode : st.mode = "rotating")
    (hsel : st.selected_shape = some i)
    (hget : st.shapes.get? i = some sh)
    (hcons : st.drag_data.initRotateAngle.isSome →
      st.drag_data.initShapeAngle.isSome) :
    (∀ r, sh = .rect r →
      ∃ st' sh' r1, App.on_canvas_drag H st cx cy = .ok st' ∧
        st'.shapes.get? i = some sh' ∧ sh' = .rect r1 ∧
        r1.angle = pymod
          ((rotSession st.drag_data (H.atan2Deg (cy - r.y) (cx - r.x)) r.angle).2 +
            (H.atan2Deg (cy - r.y) (cx - r.x) -
             (rotSession st.drag_data (H.atan2Deg (cy - r.y) (cx - r.x)) r.angle).1))
          360 ∧
        0 ≤ r1.angle ∧ r1.angle < 360) ∧
    (∀ g, sh = .hourglass g →
      ∃ st' sh' g1, App.on_canvas_drag H st cx cy = .ok st' ∧
        st'.shapes.get? i = some sh' ∧ sh' = .hourglass g1 ∧
        g1.angle = pymod
          ((rotSession st.drag_data (H.atan2Deg (cy - g.y) (cx - g.x)) g.angle).2 +
            (H.atan2Deg (cy - g.y) (cx - g.x) -
             (rotSession st.drag_data (H.atan2Deg (cy - g.y) (cx - g.x)) g.angle).1))
          360 ∧
        0 ≤ g1.angle ∧ g1.angle < 360) := by
  constructor
  · intro r hsh
    subst hsh
    simp only [App.on_canvas_drag, hsel, hget]
    rw [hmode]
    rw [if_neg (by decide :
      ¬(("rotating" : String) = "create" ∨ ("rotating" : String) = "move"))]
    rw [if_neg (by decide : ¬("rotating" : String) = "resizing")]
    rw [if_pos rfl]
    cases hinit : st.drag_data.initRotateAngle with
    | none =>
        simp only [Shape.rotateStep, hinit]
        simp only [App.redrawAt]
        have h2 := stripUI_redraw H st.canvas
          (Shape.rect { r with angle := pymod (r.angle +
            (H.atan2Deg (cy - r.y) (cx - r.x) -
             H.atan2Deg (cy - r.y) (cx - r.x))) 360 })
        obtain ⟨r1, he, -, -, -, -, -, -, -, -, ha⟩ := stripUI_eq_rect _ _ h2
        refine ⟨_, _, r1, rfl, get?_set_self st.shapes i _ _ hget, he,
          ?_, ?_, ?_⟩
        · rw [ha]
          simp [rotSession, hinit]
        · rw [ha]; exact pymod_nonneg _ _ (by norm_num)
        · rw [ha]; exact pymod_lt _ _ (by norm_num)
    | some b0 =>
        cases hinit2 : st.drag_data.initShapeAngle with
        | none =>
            exact absurd (hcons (by rw [hinit]; rfl)) (by rw [hinit2]; simp)
        | some a0 =>
            simp only [Shape.rotateStep, hinit, hinit2]
            simp only [App.redrawAt]
            have h2 := stripUI_redraw H st.canvas
              (Shape.rect { r with angle := pymod (a0 +
                (H.atan2Deg (cy - r.y) (cx - r.x) - b0)) 360 })
            obtain ⟨r1, he, -, -, -, -, -, -, -, -, ha⟩ := stripUI_eq_rect _ _ h2
            refine ⟨_, _, r1, rfl, get?_set_self st.shapes i _ _ hget, he,
              ?_, ?_, ?_⟩
            · rw [ha]
              simp [rotSession, hinit, hinit2]
            · rw [ha]; exact pymod_nonneg _ _ (by norm_num)
            · rw [ha]; exact pymod_lt _ _ (by norm_num)
  · intro g hsh
    subst hsh
    simp only [App.on_canvas_drag, hsel, hget]
    rw [hmode]
    rw [if_neg (by decide :
      ¬(("rotating" : String) = "create" ∨ ("rotating" : String) = "move"))]
    rw [if_neg (by decide : ¬("rotating" : String) = "resizing")]
    rw [if_pos rfl]
    cases hinit : st.drag_data.initRotateAngle with
    | none =>
        simp only [Shape.rotateStep, hinit]
        simp only [App.redrawAt]
        have h2 := stripUI_redraw H st.canvas
          (Shape.hourglass { g with angle := pymod (g.angle +
            (H.atan2Deg (cy - g.y) (cx - g.x) -
             H.atan2Deg (cy - g.y) (cx - g.x))) 360 })
        obtain ⟨g1, he, -, -, -, -, -, -, -, -, ha⟩ := stripUI_eq_hourglass _ _ h2
        refine ⟨_, _, g1, rfl, get?_set_self st.shapes i _ _ hget, he,
          ?_, ?_, ?_⟩
        · rw [ha]
          simp [rotSession, hinit]
        · rw [ha]; exact pymod_nonneg _ _ (by norm_num)
        · rw [ha]; exact pymod_lt _ _ (by norm_num)
    | some b0 =>
        cases hinit2 : st.drag_data.initShapeAngle with
        | none =>
            exact absurd (hcons (by rw [hinit]; rfl)) (by rw [hinit2]; simp)
        | some a0 =>
            simp only [Shape.rotateStep, hinit, hinit2]
            simp only [App.redrawAt]
            have h2 := stripUI_redraw H st.canvas
              (Shape.hourglass { g with angle := pymod (a0 +
                (H.atan2Deg (cy - g.y) (cx - g.x) - b0)) 360 })
            obtain ⟨g1, he, -, -, -, -, -, -, -, -, ha⟩ :=
              stripUI_eq_hourglass _ _ h2
            refine ⟨_, _, g1, rfl, get?_set_self st.shapes i _ _ hget, he,
              ?_, ?_, ?_⟩
            · rw [ha]
              simp [rotSession, hinit, hinit2]
            · rw [ha]; exact pymod_nonneg _ _ (by norm_num)
            · rw [ha]; exact pymod_lt _ _ (by norm_num)

/-- Witness for C6: the first rotating drag on the selected rectangle of
`stC6w` succeeds and leaves the angle inside [0, 360). -/
theorem rotating_drag_wraps_witness :
    ∃ st' sh' r1, App.on_canvas_drag host0 stC6w 150 150 = .ok st' ∧
      st'.shapes.get? 0 = some sh' ∧ sh' = .rect r1 ∧
      0 ≤ r1.angle ∧ r1.angle < 360 := by
  obtain ⟨hrect, -⟩ := rotating_drag_wraps host0 stC6w 150 150 0 _ rfl rfl rfl
    (fun h => absurd h (by decide))
  obtain ⟨st', sh', r1, hok, hget, he, hform, hge, hlt⟩ := hrect _ rfl
  exact ⟨st', sh', r1, hok, hget, he, hge, hlt⟩

/-- The handle loop of `on_canvas_click` equals the spec's rule 1: the first
handle among the reactive names (`resize`, `end1`, `end2`, `rotate`) whose
region contains the point decides the outcome; other handle entries (the text
`bbox` outline) are skipped. -/
theorem clickHandleLoop_eq_find (st : App) (sh : Shape) (cx cy : ℚ) :
    ∀ l : List (String × ℕ),
      clickHandleLoop st sh cx cy l =
        ((l.filter (fun p => namedHandle p.1)).find?
            (fun p => handleRegionContains st.canvas p.2 cx cy)).map
          (fun p => if p.1 = "rotate" then { st with mode := "rotating" }
                    else enterResizing st sh p.1 cx cy) := by
  intro l
  induction l with
  | nil => rfl
  | cons hd tl ih =>
      obtain ⟨hname, hid⟩ := hd
      by_cases hin : handleRegionContains st.canvas hid cx cy
      · by_cases hres : hname = "resize" ∨ hname = "end1" ∨ hname = "end2"
        · have hnamed : namedHandle hname = true := by
            rcases hres with h | h | h <;> simp [namedHandle, h]
          have hnrot : ¬hname = "rotate" := by
            rcases hres with h | h | h <;> subst h <;> decide
          simp [clickHandleLoop, hin, hres, List.filter_cons, hnamed,
                List.find?, hnrot]
        · by_cases hrot : hname = "rotate"
          · subst hrot
            simp [clickHandleLoop, hin, hres, List.filter_cons, namedHandle,
                  List.find?]
          · have hnamed : namedHandle hname = false := by
              simp only [namedHandle, Bool.or_eq_false_iff,
                         decide_eq_false_iff_not]
              push_neg at hres
              exact ⟨⟨⟨hres.1, hres.2.1⟩, hres.2.2⟩, hrot⟩
            simp [clickHandleLoop, hin, hres, hrot, List.filter_cons, hnamed,
                  ih]
      · by_cases hnamed : namedHandle hname
        · simp [clickHandleLoop, hin, List.filter_cons, hnamed, List.find?, ih]
        · simp [clickHandleLoop, hin, List.filter_cons, hnamed, ih]

/-- The body-hit scan of `on_canvas_click` equals the spec's rule 2: the first
pair in the scanned order whose shape contains the point is selected and
moved; otherwise the tail rules apply. -/
theorem clickScanLoop_eq_find (H : Host) (st : App) (cx cy : ℚ) :
    ∀ l : List (ℕ × Shape),
      clickScanLoop H st cx cy l =
        match l.find? (fun p => Shape.contains_point H p.2 cx cy) with
        | some p => enterMove H st p.1 cx cy
        | none => clickScanLoop H st cx cy [] := by
  intro l
  induction l with
  | nil => rfl
  | cons hd tl ih =>
      obtain ⟨i, sh⟩ := hd
      by_cases hc : Shape.contains_point H sh cx cy
      · simp [clickScanLoop, hc, List.find?]
      · simp [clickScanLoop, hc, List.find?, ih]

/-- C4: the pointer-down handler implements exactly the specification's five
prioritized rules with first match winning: (1) a reactive handle hit on the
selected shape enters `resizing`/`rotating`; (2) else a body hit, scanning
most-recently-created first, selects and enters `move`; (3) else `edit` mode
deselects to `idle`; (4) else an active drawing tool in `idle` creates the
default shape; (5) else the `select` tool deselects to `idle`. -/
theorem on_canvas_click_matches_spec (H : Host) (st : App) (cx cy : ℚ) :
    App.on_canvas_click H st cx cy = clickSpec H st cx cy := by
  unfold App.on_canvas_click clickSpec specSelectedHandleHit
  cases hsel : st.selected_shape with
  | none =>
      try simp only [hsel]
      rw [clickScanLoop_eq_find]
      cases hfind : st.shapes.enum.reverse.find?
          (fun p => Shape.contains_point H p.2 cx cy) with
      | none => rfl
      | some p => rfl
  | some i =>
      try simp only [hsel]
      cases hget : st.shapes.get? i with
      | none =>
          try simp only [hget]
          rw [clickScanLoop_eq_find]
          cases hfind : st.shapes.enum.reverse.find?
              (fun p => Shape.contains_point H p.2 cx cy) with
          | none => rfl
          | some p => rfl
      | some sh =>
          try simp only [hget]
          rw [clickHandleLoop_eq_find]
          cases hfind : (sh.handlesOf.filter (fun p => namedHandle p.1)).find?
              (fun p => handleRegionContains st.canvas p.2 cx cy) with
          | none =>
              simp only [hfind, Option.map_none']
              rw [clickScanLoop_eq_find]
              cases hfind2 : st.shapes.enum.reverse.find?
                  (fun p => Shape.contains_point H p.2 cx cy) with
              | none => rfl
              | some p => rfl
          | some p => simp only [hfind, Option.map_some', hsel]

/-- C8 (counterexample): in the reachable state `c8g` — rectangle A created at
(100,100), rectangle B created at (400,100), then pointer-down on A's body —
the display list holds the primitives in order [B, A] ([3, 0]) while the
creation order is [A, B] ([0, 3]): selecting A raised it above B, so draw
order no longer equals creation order while hit-testing still scans creation
order. -/
theorem z_order_differs_from_creation_order :
    drawOrder c8g = [3, 0] ∧ shapeItemIds c8g = [0, 3] ∧
    drawOrder c8g ≠ shapeItemIds c8g ∧ c8g.mode = "move" := by
  exact ⟨by decide, by decide, by decide, by decide⟩

theorem filter_ne_filter_mem (S : List ℕ) (i : ℕ) (hi : i ∉ S) :
    ∀ l : List ℕ,
      (l.filter (fun a => decide (a ≠ i))).filter (fun a => decide (a ∈ S)) =
        l.filter (fun a => decide (a ∈ S)) := by
  intro l
  rw [List.filter_filter]
  apply List.filter_congr
  intro a _
  by_cases hm : a ∈ S
  · have hne : ¬(a = i) := fun h => hi (h ▸ hm)
    simp [hm, hne]
  · simp [hm]

theorem map_fst_filter_fst (p : ℕ → Bool) :
    ∀ items : List (ℕ × CanvasItem),
      (items.filter (fun e => p e.1)).map Prod.fst =
        (items.map Prod.fst).filter p := by
  intro items
  induction items with
  | nil => rfl
  | cons e tl ih =>
      by_cases hp : p e.1 <;> simp [List.filter_cons, hp, ih]

theorem idsOf_deleteItem (c : Canvas) (i : ℕ) :
    idsOf (c.deleteItem i) = (idsOf c).filter (fun a => decide (a ≠ i)) := by
  unfold idsOf Canvas.deleteItem
  dsimp only
  exact map_fst_filter_fst (fun a => decide (a ≠ i)) c.items

theorem dOrd_deleteItem (S : List ℕ) (c : Canvas) (i : ℕ) (hi : i ∉ S) :
    dOrd S (c.deleteItem i) = dOrd S c := by
  unfold dOrd
  rw [idsOf_deleteItem, filter_ne_filter_mem S i hi]

theorem dOrd_create (S : List ℕ) (c : Canvas) (it : CanvasItem)
    (h : c.nextId ∉ S) : dOrd S ((c.create it).1) = dOrd S c := by
  unfold dOrd idsOf Canvas.create
  simp [List.filter_append, h]

theorem mem_idsOf_deleteItem (c : Canvas) (a i : ℕ) (hne : a ≠ i)
    (h : a ∈ idsOf c) : a ∈ idsOf (c.deleteItem i) := by
  rw [idsOf_deleteItem]
  exact List.mem_filter.2 ⟨h, by simpa using hne⟩

theorem mem_idsOf_create (c : Canvas) (a : ℕ) (it : CanvasItem)
    (h : a ∈ idsOf c) : a ∈ idsOf ((c.create it).1) := by
  unfold idsOf Canvas.create
  simp only [List.map_append]
  exact List.mem_append_left _ h

theorem dOrd_tag_raise_not_mem (S : List ℕ) (c : Canvas) (i : ℕ)
    (hi : i ∉ S) : dOrd S (c.tag_raise i) = dOrd S c := by
  unfold Canvas.tag_raise
  cases hfind : c.items.find? (fun e => decide (e.1 = i)) with
  | none => rfl
  | some e =>
      have he : e.1 = i := by
        have := List.find?_some hfind
        simpa using this
      unfold dOrd idsOf
      simp only [List.map_append, List.filter_append,
                 map_fst_filter_fst (fun a => decide (a ≠ i)) c.items]
      rw [filter_ne_filter_mem S i hi]
      simp [he, hi]

theorem dOrd_tag_raise_mem (S : List ℕ) (c : Canvas) (i : ℕ)
    (hmem : i ∈ idsOf c) (hS : i ∈ S) :
    dOrd S (c.tag_raise i) =
      (dOrd S c).filter (fun a => decide (a ≠ i)) ++ [i] := by
  unfold Canvas.tag_raise
  have hfs : (c.items.find? (fun e => decide (e.1 = i))).isSome := by
    rw [List.find?_isSome]
    obtain ⟨e, hmem2, he⟩ := List.mem_map.1 hmem
    exact ⟨e, hmem2, by simpa using he⟩
  cases hfind : c.items.find? (fun e => decide (e.1 = i)) with
  | none => rw [hfind] at hfs; simp at hfs
  | some e =>
      have he : e.1 = i := by
        have := List.find?_some hfind
        simpa using this
      unfold dOrd idsOf
      simp only [List.map_append, List.filter_append,
                 map_fst_filter_fst (fun a => decide (a ≠ i)) c.items]
      congr 1
      · rw [List.filter_comm]
      · simp [he, hS]

theorem nextId_fold_delete (hs : List (String × ℕ)) :
    ∀ c : Canvas,
      (hs.foldl (fun acc p => acc.deleteItem p.2) c).nextId = c.nextId := by
  induction hs with
  | nil => intro c; rfl
  | cons hd tl ih => intro c; exact ih (c.deleteItem hd.2)

theorem dOrd_fold_delete (S : List ℕ) (hs : List (String × ℕ)) :
    ∀ c : Canvas, (∀ p ∈ hs, p.2 ∉ S) →
      dOrd S (hs.foldl (fun acc p => acc.deleteItem p.2) c) = dOrd S c := by
  induction hs with
  | nil => intro c _; rfl
  | cons hd tl ih =>
      intro c hall
      have h1 := ih (c.deleteItem hd.2) (fun p hp => hall p (List.mem_cons_of_mem _ hp))
      rw [List.foldl_cons, h1,
          dOrd_deleteItem S c hd.2 (hall hd (List.mem_cons_self _ _))]

theorem mem_idsOf_fold_delete (a : ℕ) (hs : List (String × ℕ)) :
    ∀ c : Canvas, a ∈ idsOf c → (∀ p ∈ hs, p.2 ≠ a) →
      a ∈ idsOf (hs.foldl (fun acc p => acc.deleteItem p.2) c) := by
  induction hs with
  | nil => intro c h _; exact h
  | cons hd tl ih =>
      intro c h hall
      rw [List.foldl_cons]
      exact ih (c.deleteItem hd.2)
        (mem_idsOf_deleteItem c a hd.2
          (fun he => hall hd (List.mem_cons_self _ _) he.symm) h)
        (fun p hp => hall p (List.mem_cons_of_mem _ hp))

theorem dOrd_fold_tag_raise (S : List ℕ) (hs : List (String × ℕ)) :
    ∀ c : Canvas, (∀ p ∈ hs, p.2 ∉ S) →
      dOrd S (hs.foldl (fun acc p => acc.tag_raise p.2) c) = dOrd S c := by
  induction hs with
  | nil => intro c _; rfl
  | cons hd tl ih =>
      intro c hall
      rw [List.foldl_cons,
          ih (c.tag_raise hd.2) (fun p hp => hall p (List.mem_cons_of_mem _ hp)),
          dOrd_tag_raise_not_mem S c hd.2 (hall hd (List.mem_cons_self _ _))]

theorem itemOf_withSelected (sh : Shape) (b : Bool) :
    (sh.withSelected b).itemOf = sh.itemOf := by
  cases sh <;> rfl

theorem handlesOf_withSelected (sh : Shape) (b : Bool) :
    (sh.withSelected b).handlesOf = sh.handlesOf := by
  cases sh <;> rfl

theorem itemOf_delete_handles (c : Canvas) (sh : Shape) :
    (Shape.delete_handles c sh).2.itemOf = sh.itemOf := by
  cases sh <;> rfl

theorem itemOf_deselect (c : Canvas) (sh : Shape) :
    (Shape.deselect c sh).2.itemOf = sh.itemOf := by
  cases sh <;> rfl

theorem handlesOf_deselect (c : Canvas) (sh : Shape) :
    (Shape.deselect c sh).2.handlesOf = [] := by
  cases sh <;> rfl

theorem canvas_deselect (c : Canvas) (sh : Shape) :
    (Shape.deselect c sh).1 =
      sh.handlesOf.foldl (fun acc p => acc.deleteItem p.2) c := by
  cases sh <;> rfl

theorem get?_set_of_ne {α : Type _} (l : List α) (i j : ℕ) (a : α)
    (h : i ≠ j) : (l.set j a).get? i = l.get? i := by
  induction l generalizing i j with
  | nil => simp
  | cons hd tl ih =>
      cases j with
      | zero =>
          cases i with
          | zero => exact absurd rfl h
          | succ n => simp
      | succ m =>
          cases i with
          | zero => simp
          | succ n => simpa using ih n m (fun he => h (by rw [he]))

theorem filterMap_itemOf_set (l : List Shape) :
    ∀ (j : ℕ) (sh2 sh' : Shape), l.get? j = some sh2 →
      sh'.itemOf = sh2.itemOf →
      (l.set j sh').filterMap Shape.itemOf = l.filterMap Shape.itemOf := by
  induction l with
  | nil => intro j sh2 sh' h _; simp at h
  | cons hd tl ih =>
      intro j sh2 sh' h hitem
      cases j with
      | zero =>
          simp only [List.get?] at h
          injection h with h
          subst h
          simp [List.filterMap_cons, hitem]
      | succ m =>
          simp only [List.get?] at h
          simp [List.filterMap_cons, ih m sh2 sh' h hitem]

theorem notMem_of_bound {S : List ℕ} {n : ℕ} (hb : ∀ a ∈ S, a < n) : n ∉ S :=
  fun hmem => lt_irrefl n (hb n hmem)

theorem handlesOf_withHandles (sh : Shape) (hs : List (String × ℕ)) :
    (sh.withHandles hs).handlesOf = hs := by
  cases sh <;> rfl

theorem itemOf_withHandles (sh : Shape) (hs : List (String × ℕ)) :
    (sh.withHandles hs).itemOf = sh.itemOf := by
  cases sh <;> rfl

theorem dOrd_create_create (c0 : Canvas) (it1 it2 : CanvasItem) (S : List ℕ)
    (hb0 : ∀ a ∈ S, a < c0.nextId) :
    dOrd S (((c0.create it1).1.create it2).1) = dOrd S c0 := by
  rw [dOrd_create S _ it2 (fun hmem => by
        have h1 := hb0 _ hmem
        have h2 : ((c0.create it1).1).nextId = c0.nextId + 1 := rfl
        omega),
      dOrd_create S c0 it1 (notMem_of_bound hb0)]

theorem mem_idsOf_create_create (c0 : Canvas) (a : ℕ) (it1 it2 : CanvasItem)
    (h : a ∈ idsOf c0) : a ∈ idsOf (((c0.create it1).1.create it2).1) :=
  mem_idsOf_create _ a it2 (mem_idsOf_create c0 a it1 h)

theorem draw_handles_effects (H : Host) (c : Canvas) (sh : Shape) (S : List ℕ)
    (hold : ∀ p ∈ sh.handlesOf, p.2 ∉ S)
    (hb : ∀ a ∈ S, a < c.nextId) :
    dOrd S (Shape.draw_handles H c sh).1 = dOrd S c ∧
    (∀ p ∈ ((Shape.draw_handles H c sh).2).handlesOf, p.2 ∉ S) ∧
    ((Shape.draw_handles H c sh).2).itemOf = sh.itemOf ∧
    (∀ a, a ∈ idsOf c → a ∈ S → a ∈ idsOf (Shape.draw_handles H c sh).1) := by
  have hfold : ∀ a ∈ S,
      a < ((sh.handlesOf.foldl (fun acc p => acc.deleteItem p.2) c)).nextId := by
    intro a ha
    rw [nextId_fold_delete]
    exact hb a ha
  have hmemfold : ∀ a, a ∈ idsOf c → a ∈ S →
      a ∈ idsOf (sh.handlesOf.foldl (fun acc p => acc.deleteItem p.2) c) := by
    intro a hmem haS
    exact mem_idsOf_fold_delete a sh.handlesOf c hmem
      (fun p hp he => hold p hp (he ▸ haS))
  have hdofold :
      dOrd S (sh.handlesOf.foldl (fun acc p => acc.deleteItem p.2) c) =
        dOrd S c := dOrd_fold_delete S sh.handlesOf c hold
  cases sh with
  | rect r =>
      simp only [Shape.draw_handles, Shape.delete_handles, Shape.withHandles,
                 Shape.withCore, Shape.coreOf]
      refine ⟨?_, ?_, ?_, ?_⟩
      · rw [dOrd_create_create _ _ _ S hfold]
        exact hdofold
      · intro p hp
        simp only [Shape.handlesOf, Shape.coreOf, List.mem_cons,
                   List.not_mem_nil, or_false] at hp
        rcases hp with hp | hp <;> subst hp
        · exact notMem_of_bound hfold
        · refine notMem_of_bound ?_
          intro a ha
          exact Nat.lt_succ_of_lt (hfold a ha)
      · simp [Shape.itemOf, Shape.coreOf]
      · intro a hmem haS
        exact mem_idsOf_create_create _ a _ _ (hmemfold a hmem haS)
  | circle s =>
      simp only [Shape.draw_handles, Shape.delete_handles, Shape.withHandles,
                 Shape.withCore, Shape.coreOf]
      refine ⟨?_, ?_, ?_, ?_⟩
      · rw [dOrd_create_create _ _ _ S hfold]
        exact hdofold
      · intro p hp
        simp only [Shape.handlesOf, Shape.coreOf, List.mem_cons,
                   List.not_mem_nil, or_false] at hp
        rcases hp with hp | hp <;> subst hp
        · exact notMem_of_bound hfold
        · refine notMem_of_bound ?_
          intro a ha
          exact Nat.lt_succ_of_lt (hfold a ha)
      · simp [Shape.itemOf, Shape.coreOf]
      · intro a hmem haS
        exact mem_idsOf_create_create _ a _ _ (hmemfold a hmem haS)
  | hourglass g =>
      simp only [Shape.draw_handles, Shape.delete_handles, Shape.withHandles,
                 Shape.withCore, Shape.coreOf]
      refine ⟨?_, ?_, ?_, ?_⟩
      · rw [dOrd_create_create _ _ _ S hfold]
        exact hdofold
      · intro p hp
        simp only [Shape.handlesOf, Shape.coreOf, List.mem_cons,
                   List.not_mem_nil, or_false] at hp
        rcases hp with hp | hp <;> subst hp
        · exact notMem_of_bound hfold
        · refine notMem_of_bound ?_
          intro a ha
          exact Nat.lt_succ_of_lt (hfold a ha)
      · simp [Shape.itemOf, Shape.coreOf]
      · intro a hmem haS
        exact mem_idsOf_create_create _ a _ _ (hmemfold a hmem haS)
  | line l =>
      simp only [Shape.draw_handles, Shape.delete_handles, Shape.withHandles,
                 Shape.withCore, Shape.coreOf]
      refine ⟨?_, ?_, ?_, ?_⟩
      · rw [dOrd_create_create _ _ _ S hfold]
        exact hdofold
      · intro p hp
        simp only [Shape.handlesOf, Shape.coreOf, List.mem_cons,
                   List.not_mem_nil, or_false] at hp
        rcases hp with hp | hp <;> subst hp
        · exact notMem_of_bound hfold
        · refine notMem_of_bound ?_
          intro a ha
          exact Nat.lt_succ_of_lt (hfold a ha)
      · simp [Shape.itemOf, Shape.coreOf]
      · intro a hmem haS
        exact mem_idsOf_create_create _ a _ _ (hmemfold a hmem haS)
  | text t =>
      simp only [Shape.draw_handles, Shape.delete_handles, Shape.withHandles,
                 Shape.withCore, Shape.coreOf]
      cases hbb : t.bbox with
      | none =>
          simp only [hbb]
          exact ⟨hdofold, by simp [Shape.handlesOf, Shape.coreOf],
                 by simp [Shape.itemOf, Shape.coreOf], hmemfold⟩
      | some bb =>
          obtain ⟨bx1, by1, bx2, by2⟩ := bb
          simp only [hbb]
          refine ⟨?_, ?_, ?_, ?_⟩
          · rw [dOrd_create_create _ _ _ S hfold]
            exact hdofold
          · intro p hp
            simp only [Shape.handlesOf, Shape.coreOf, List.mem_cons,
                       List.not_mem_nil, or_false] at hp
            rcases hp with hp | hp <;> subst hp
            · exact notMem_of_bound hfold
            · refine notMem_of_bound ?_
              intro a ha
              exact Nat.lt_succ_of_lt (hfold a ha)
          · simp [Shape.itemOf, Shape.coreOf]
          · intro a hmem haS
            exact mem_idsOf_create_create _ a _ _ (hmemfold a hmem haS)

theorem mem_shapeItemIds (st : App) (i : ℕ) (sh : Shape) (it : ℕ)
    (hget : st.shapes.get? i = some sh) (hitem : sh.itemOf = some it) :
    it ∈ shapeItemIds st := by
  unfold shapeItemIds
  rw [List.mem_filterMap]
  exact ⟨sh, List.get?_mem hget, hitem⟩

theorem deselect_all_effects (st : App) (S : List ℕ)
    (hhandles : ∀ j sh2, st.shapes.get? j = some sh2 →
      ∀ p ∈ sh2.handlesOf, p.2 ∉ S) :
    shapeItemIds st.deselect_all = shapeItemIds st ∧
    dOrd S st.deselect_all.canvas = dOrd S st.canvas ∧
    st.deselect_all.canvas.nextId = st.canvas.nextId ∧
    (∀ a, a ∈ idsOf st.canvas → a ∈ S → a ∈ idsOf st.deselect_all.canvas) ∧
    (∀ i sh, st.shapes.get? i = some sh → ∃ sh1,
      st.deselect_all.shapes.get? i = some sh1 ∧ sh1.itemOf = sh.itemOf ∧
      (∀ p ∈ sh1.handlesOf, p.2 ∉ S)) := by
  unfold App.deselect_all
  cases hsel : st.selected_shape with
  | none =>
      refine ⟨rfl, rfl, rfl, fun a h _ => h, ?_⟩
      intro i sh hget
      exact ⟨sh, hget, rfl, hhandles i sh hget⟩
  | some j =>
      dsimp only
      cases hgetj : st.shapes.get? j with
      | none =>
          refine ⟨rfl, rfl, rfl, fun a h _ => h, ?_⟩
          intro i sh hget
          exact ⟨sh, hget, rfl, hhandles i sh hget⟩
      | some sh2 =>
          dsimp only
          refine ⟨?_, ?_, ?_, ?_, ?_⟩
          · unfold shapeItemIds
            exact filterMap_itemOf_set st.shapes j sh2 _ hgetj
              (itemOf_deselect _ _)
          · rw [canvas_deselect]
            exact dOrd_fold_delete S sh2.handlesOf st.canvas
              (hhandles j sh2 hgetj)
          · rw [canvas_deselect]
            exact nextId_fold_delete sh2.handlesOf st.canvas
          · intro a hmem haS
            rw [canvas_deselect]
            exact mem_idsOf_fold_delete a sh2.handlesOf st.canvas hmem
              (fun p hp he => hhandles j sh2 hgetj p hp (he ▸ haS))
          · intro i sh hget
            by_cases hij : j = i
            · subst hij
              rw [hgetj] at hget
              injection hget with hget
              subst hget
              refine ⟨(Shape.deselect st.canvas sh2).2,
                get?_set_self st.shapes j _ sh2 hgetj,
                itemOf_deselect _ _, ?_⟩
              rw [handlesOf_deselect]
              intro p hp
              simp at hp
            · refine ⟨sh, ?_, rfl, hhandles i sh hget⟩
              rw [get?_set_of_ne st.shapes i j _ (fun h => hij h.symm)]
              exact hget

/-- C8 (amended): `select_shape` moves the selected shape's primitive to the
top of the display list and leaves the relative draw order of the other shape
primitives — and the creation sequence itself — unchanged; hence draw order
equals creation order only until a shape that is not topmost is selected.
The hypotheses say the canvas is well-formed: primitive ids are below the
fresh-id counter, handle items are distinct from shape primitives, and the
selected shape's primitive is on the canvas. -/
theorem select_shape_raises_selected (H : Host) (st : App) (i : ℕ) (sh : Shape)
    (it : ℕ)
    (hget : st.shapes.get? i = some sh)
    (hitem : sh.itemOf = some it)
    (hb : ∀ a ∈ shapeItemIds st, a < st.canvas.nextId)
    (hhandles : ∀ j sh2, st.shapes.get? j = some sh2 →
      ∀ p ∈ sh2.handlesOf, p.2 ∉ shapeItemIds st)
    (hmem : it ∈ idsOf st.canvas) :
    shapeItemIds (App.select_shape H st i) = shapeItemIds st ∧
    drawOrder (App.select_shape H st i) =
      (drawOrder st).filter (fun a => decide (a ≠ it)) ++ [it] := by
  obtain ⟨hS1, hD1, hN1, hM1, hG1⟩ :=
    deselect_all_effects st (shapeItemIds st) hhandles
  obtain ⟨sh1, hget1, hitem1, hhandles1⟩ := hG1 i sh hget
  have hitS : it ∈ shapeItemIds st := mem_shapeItemIds st i sh it hget hitem
  have hitem1' : sh1.itemOf = some it := by rw [hitem1, hitem]
  have hb1 : ∀ a ∈ shapeItemIds st, a < st.deselect_all.canvas.nextId := by
    rw [hN1]; exact hb
  obtain ⟨hD2, hH2, hI2, hM2⟩ :=
    draw_handles_effects H st.deselect_all.canvas (sh1.withSelected true)
      (shapeItemIds st)
      (by rw [handlesOf_withSelected]; exact hhandles1) hb1
  rw [itemOf_withSelected, hitem1'] at hI2
  have hmem1 : it ∈ idsOf st.deselect_all.canvas := hM1 it hmem hitS
  have hmem2 : it ∈ idsOf
      (Shape.draw_handles H st.deselect_all.canvas (sh1.withSelected true)).1 :=
    hM2 it hmem1 hitS
  unfold App.select_shape
  dsimp only
  rw [hget1]
  unfold Shape.select
  dsimp only
  rw [hI2]
  dsimp only
  have hset : (st.deselect_all.shapes.set i
      (Shape.draw_handles H st.deselect_all.canvas
        (sh1.withSelected true)).2).filterMap Shape.itemOf =
      shapeItemIds st := by
    rw [filterMap_itemOf_set st.deselect_all.shapes i sh1 _ hget1
          (by rw [hI2, hitem1'])]
    exact hS1
  constructor
  · exact hset
  · unfold drawOrder
    dsimp only [shapeItemIds]
    simp only [hset]
    show dOrd (shapeItemIds st) _ =
      List.filter (fun a => decide (a ≠ it)) (drawOrder st) ++ [it]
    rw [dOrd_fold_tag_raise (shapeItemIds st) _ _ hH2,
        dOrd_tag_raise_mem (shapeItemIds st) _ it hmem2 hitS, hD2, hD1]
    rfl

/-- Witness for the amended C8: in `c8w` (rectangles A and B with primitives
[0, 3] in creation order), selecting A moves its primitive to the top — draw
order becomes [3, 0] — while the creation sequence stays [0, 3]. -/
theorem select_shape_raises_selected_witness :
    shapeItemIds (App.select_shape host0 c8w 0) = [0, 3] ∧
    drawOrder (App.select_shape host0 c8w 0) = [3, 0] := by
  have hhandles : ∀ j sh2, c8w.shapes.get? j = some sh2 →
      ∀ p ∈ sh2.handlesOf, p.2 ∉ shapeItemIds c8w := by
    intro j sh2 hgetj p hp
    match j with
    | 0 =>
        injection hgetj with hgetj
        subst hgetj
        simp [Shape.handlesOf, Shape.coreOf, c8w] at hp
    | 1 =>
        injection hgetj with hgetj
        subst hgetj
        simp only [Shape.handlesOf, Shape.coreOf, c8w, List.mem_cons,
                   List.not_mem_nil, or_false] at hp
        rcases hp with hp | hp <;> subst hp <;> decide
    | (m + 2) => simp [c8w] at hgetj
  obtain ⟨h1, h2⟩ := select_shape_raises_selected host0 c8w 0
    (.rect ⟨⟨false, [], some 0⟩, 100, 100, 100, 60, 100, 100, 100, 60, 0⟩) 0
    (by decide) (by decide) (by decide) hhandles (by decide)
  constructor
  · rw [h1]; decide
  · rw [h2]; decide

theorem snd_mem_of_mem_enumFrom {α : Type _} :
    ∀ (l : List α) (n : ℕ) (p : ℕ × α), p ∈ l.enumFrom n → p.2 ∈ l := by
  intro l
  induction l with
  | nil => intro n p hp; simp [List.enumFrom] at hp
  | cons a tl ih =>
      intro n p hp
      simp only [List.enumFrom, List.mem_cons] at hp
      rcases hp with hp | hp
      · subst hp; exact List.mem_cons_self _ _
      · exact List.mem_cons_of_mem _ (ih (n + 1) p hp)

theorem scan_all_miss (H : Host) (st : App) (cx cy : ℚ) :
    ∀ pl : List (ℕ × Shape),
      (∀ p ∈ pl, Shape.contains_point H p.2 cx cy = false) →
      clickScanLoop H st cx cy pl = clickScanLoop H st cx cy [] := by
  intro pl
  induction pl with
  | nil => intro _; rfl
  | cons hd tl ih =>
      intro hall
      obtain ⟨i, sh⟩ := hd
      have hhd : Shape.contains_point H sh cx cy = false :=
        hall (i, sh) (List.mem_cons_self _ _)
      simp only [clickScanLoop, hhd, Bool.false_eq_true, if_false]
      exact ih (fun p hp => hall p (List.mem_cons_of_mem _ hp))

theorem click_no_hit_edit (H : Host) (st : App) (cx cy : ℚ)
    (hsel : st.selected_shape = none)
    (hmode : st.mode = "edit")
    (hmiss : ∀ sh2 ∈ st.shapes, Shape.contains_point H sh2 cx cy = false) :
    (App.on_canvas_click H st cx cy).mode = "idle" ∧
    (App.on_canvas_click H st cx cy).shapes = st.shapes ∧
    (App.on_canvas_click H st cx cy).selected_shape = none := by
  have hall : ∀ p ∈ st.shapes.enum.reverse,
      Shape.contains_point H p.2 cx cy = false := by
    intro p hp
    exact hmiss p.2
      (snd_mem_of_mem_enumFrom st.shapes 0 p (List.mem_reverse.1 hp))
  unfold App.on_canvas_click
  dsimp only
  rw [hsel]
  dsimp only
  rw [scan_all_miss H st cx cy _ hall]
  simp only [clickScanLoop]
  rw [hmode]
  rw [if_pos rfl]
  unfold idleDeselect App.deselect_all
  rw [hsel]
  exact ⟨rfl, rfl, rfl⟩

/-- C10: deleting the selected shape removes it from the shape sequence and
clears the selection but leaves the mode unchanged; consequently, after a
deletion performed in `edit` mode, the next pointer-down that hits nothing
only deselects and returns to `idle` — no shape is created, whatever the
active tool. -/
theorem delete_selected_keeps_mode (st : App) (i : ℕ) (sh : Shape)
    (hsel : st.selected_shape = some i)
    (hget : st.shapes.get? i = some sh) :
    (App.delete_selected_shape st).mode = st.mode ∧
    (App.delete_selected_shape st).selected_shape = none ∧
    (App.delete_selected_shape st).shapes = st.shapes.eraseIdx i ∧
    (st.mode = "edit" →
      ∀ (H : Host) (cx cy : ℚ),
        (∀ sh2 ∈ (App.delete_selected_shape st).shapes,
          Shape.contains_point H sh2 cx cy = false) →
        (App.on_canvas_click H (App.delete_selected_shape st) cx cy).mode =
          "idle" ∧
        (App.on_canvas_click H (App.delete_selected_shape st) cx cy).shapes =
          (App.delete_selected_shape st).shapes ∧
        (App.on_canvas_click H (App.delete_selected_shape st) cx
          cy).selected_shape = none) := by
  have hmode : (App.delete_selected_shape st).mode = st.mode := by
    unfold App.delete_selected_shape
    rw [hsel]
    dsimp only
    rw [hget]
  have hsel2 : (App.delete_selected_shape st).selected_shape = none := by
    unfold App.delete_selected_shape
    rw [hsel]
    dsimp only
    rw [hget]
  have hshapes : (App.delete_selected_shape st).shapes =
      st.shapes.eraseIdx i := by
    unfold App.delete_selected_shape
    rw [hsel]
    dsimp only
    rw [hget]
  refine ⟨hmode, hsel2, hshapes, ?_⟩
  intro hedit H cx cy hmiss
  exact click_no_hit_edit H (App.delete_selected_shape st) cx cy hsel2
    (by rw [hmode, hedit]) hmiss

/-- Witness for C10: deleting the selected rectangle of `stC10w` (mode `edit`,
rectangle tool active) keeps mode `edit` and empties the sequence; the next
pointer-down on the now-empty canvas goes to `idle` and creates nothing. -/
theorem delete_selected_keeps_mode_witness :
    (App.delete_selected_shape stC10w).mode = "edit" ∧
    (App.delete_selected_shape stC10w).shapes = [] ∧
    (App.on_canvas_click host0 (App.delete_selected_shape stC10w) 500
      500).mode = "idle" ∧
    (App.on_canvas_click host0 (App.delete_selected_shape stC10w) 500
      500).shapes = [] ∧
    stC10w.current_tool = "rectangle" := by
  obtain ⟨h1, h2, h3, h4⟩ := delete_selected_keeps_mode stC10w 0 _ rfl rfl
  obtain ⟨h5, h6, h7⟩ := h4 rfl host0 500 500 (by decide)
  refine ⟨?_, ?_, h5, ?_, by decide⟩
  · rw [h1]
    decide
  · rw [h3]
    decide
  · rw [h6, h3]
    decide
